import Mathlib

/-!
Verification of the tkrzw memory-mapped file backend (Windows variant,
src/tkrzw_sys_file_mmap_windows.h) against its natural-language specification.

The two implementation classes, MemoryMapParallelFileImpl and
MemoryMapAtomicFileImpl, are embedded as pure state-transition functions on an
explicit record of their member fields.  Operating-system calls (CreateFile,
LockFileEx, PositionalWriteFile, RemapMemory, TruncateFileInternally,
FlushViewOfFile, ...) are modelled by Boolean outcome parameters: `true` means
the call succeeded.  The length of the underlying OS file is carried in the
state as `osLen` so that truncation effects are observable.  Concurrency is
reduced to the sequential interleaving semantics: each operation is one atomic
step, which is the linearisation the compare-exchange loops of the Parallel
variant realise.  64-bit integers are modelled as unbounded Int; every size
handled by the backend is bounded by MAX_MEMORY_SIZE, far below 2^63, so
overflow never occurs on the modelled paths.  C doubles are modelled as exact
rationals, with the cast to int64_t as truncation toward zero.
-/

namespace Tkrzw

/-- Modelled from the spec: the Status type of tkrzw_lib_common.h (declared
outside src), a tagged value carrying a code from a closed set and a
diagnostic message (spec sections 3 and 7). -/
inductive StatusCode where
  | success
  | preconditionError
  | infeasibleError
  | systemError
  | ioError
  | notImplementedError
  deriving DecidableEq, Repr

/-- Modelled from the spec: a Status value is a code plus an optional message. -/
structure Status where
  code : StatusCode
  message : String
  deriving DecidableEq, Repr

/-- The successful Status. -/
def Status.ok : Status := ⟨StatusCode.success, ""⟩

/-- Modelled from the spec: composition of statuses retains the first
non-success (spec section 3). -/
def Status.accum (a b : Status) : Status :=
  if a.code = StatusCode.success then b else a

/-- Shorthand for a PRECONDITION_ERROR status. -/
def precond (msg : String) : Status := ⟨StatusCode.preconditionError, msg⟩

/-- Shorthand for an INFEASIBLE_ERROR status. -/
def infeasible (msg : String) : Status := ⟨StatusCode.infeasibleError, msg⟩

/-- Shorthand for a SYSTEM_ERROR status. -/
def sysErr (msg : String) : Status := ⟨StatusCode.systemError, msg⟩

/-- Modelled from the spec: PAGE_SIZE of tkrzw_lib_common.h (declared outside
src), the page size used for map alignment. -/
def PAGE_SIZE : Int := 4096

/-- Modelled from the spec: MAX_MEMORY_SIZE of tkrzw_lib_common.h (declared
outside src), the largest file size acceptable to the mapped backend: 2^40. -/
def MAX_MEMORY_SIZE : Int := 1099511627776

/-- Modelled from the spec: File::DEFAULT_ALLOC_INIT_SIZE (declared outside
src), the default initial allocation size: 2^20. -/
def DEFAULT_ALLOC_INIT_SIZE : Int := 1048576

/-- Modelled from the spec: File::DEFAULT_ALLOC_INC_FACTOR (declared outside
src); the spec says the growth factor defaults to the order of 2x. -/
def DEFAULT_ALLOC_INC_FACTOR : ℚ := 2

/-- Modelled from the spec: AlignNumber of tkrzw_lib_common.h (declared outside
src) rounds a nonnegative number up to a multiple of the positive alignment
("rounded up to a page boundary"). -/
def AlignNumber (num alignment : Int) : Int :=
  (num + alignment - 1) / alignment * alignment

/-- Modelled from the spec: the C expression static_cast int64_t of the double
product map_size * alloc_inc_factor.  The double is an exact rational q, the
product m * q is the rational (m * q.num) / q.den, and the cast truncates
toward zero, which Int.tdiv computes. -/
def castMulInt64 (m : Int) (q : ℚ) : Int := Int.tdiv (m * q.num) (q.den : Int)

/-- The member fields shared by MemoryMapParallelFileImpl (atomics) and
MemoryMapAtomicFileImpl (plain fields guarded by the mutex); sequentially the
two field sets have the same meaning.  `handleOpen` stands for
file_handle_ != nullptr, `mapIsDummy` for map_ == DUMMY_MAP, `mapVersion`
increases whenever the mapping object is replaced, and `osLen` is the length
of the underlying OS file. -/
structure FileState where
  handleOpen : Bool
  path : String
  fileSize : Int
  mapIsDummy : Bool
  mapVersion : Nat
  mapSize : Int
  writable : Bool
  openOptions : Int
  allocInitSize : Int
  allocIncFactor : ℚ
  osLen : Int
  deriving DecidableEq, Repr

/-- State established by the constructors of both impl classes. -/
def FileState.initial : FileState :=
  { handleOpen := false, path := "", fileSize := 0, mapIsDummy := false,
    mapVersion := 0, mapSize := 0, writable := false, openOptions := 0,
    allocInitSize := DEFAULT_ALLOC_INIT_SIZE,
    allocIncFactor := DEFAULT_ALLOC_INC_FACTOR, osLen := 0 }

namespace MemoryMapParallelFileImpl

/-- MemoryMapParallelFileImpl::Open (src/tkrzw_sys_file_mmap_windows.h:83-185).
Oracle parameters: createOk for CreateFile, lockOk for LockFileEx (true also
when OPEN_NO_LOCK skips it), sizeOk for GetFileSizeEx, osLen for the reported
length, mapOk for CreateFileMapping together with MapViewOfFile. -/
def Open (st : FileState) (path : String) (writable : Bool) (options : Int)
    (createOk lockOk sizeOk : Bool) (osLen : Int) (mapOk : Bool) :
    Status × FileState :=
  if st.handleOpen = true then (precond "opened file", st)
  else if createOk = false then (sysErr "CreateFile", st)
  else if lockOk = false then (sysErr "LockFileEx", st)
  else if sizeOk = false then (sysErr "GetFileSizeEx", st)
  else if MAX_MEMORY_SIZE < osLen then (infeasible "too large file", st)
  else
    let mapSize := if writable = true then max osLen st.allocInitSize else osLen
    if 0 < mapSize ∧ mapOk = false then (sysErr "CreateFileMapping", st)
    else
      (Status.ok,
       { st with handleOpen := true, path := path, fileSize := osLen,
                 mapIsDummy := decide (mapSize ≤ 0),
                 mapVersion := st.mapVersion + 1, mapSize := mapSize,
                 writable := writable, openOptions := options, osLen := osLen })

/-- MemoryMapParallelFileImpl::Close (src:187-235).  The unmap runs only for a
real mapping, the truncation to the logical size only for writable files;
errors of the individual OS calls accumulate and cleanup continues. -/
def Close (st : FileState) (unmapOk closeMapOk truncOk unlockOk closeOk : Bool) :
    Status × FileState :=
  if st.handleOpen = false then (precond "not opened file", st)
  else
    let s1 := if st.mapIsDummy = false ∧ unmapOk = false then
                Status.accum Status.ok (sysErr "UnmapViewOfFile") else Status.ok
    let s2 := if st.mapIsDummy = false ∧ closeMapOk = false then
                Status.accum s1 (sysErr "CloseHandle") else s1
    let s3 := if st.writable = true ∧ truncOk = false then
                Status.accum s2 (sysErr "TruncateFile") else s2
    let osLen2 := if st.writable = true ∧ truncOk = true then st.fileSize
                  else st.osLen
    let s4 := if unlockOk = false then Status.accum s3 (sysErr "UnlockFileEx")
              else s3
    let s5 := if closeOk = false then Status.accum s4 (sysErr "CloseHandle")
              else s4
    (s5,
     { st with handleOpen := false, path := "", fileSize := 0,
               mapIsDummy := false, mapSize := 0, writable := false,
               openOptions := 0, osLen := osLen2 })

/-- MemoryMapParallelFileImpl::AllocateSpace (src:351-376).  writeOk is the
outcome of the one-byte PositionalWriteFile at new_map_size - 1, remapOk the
outcome of RemapMemory; sequentially the double-checked re-read under the lock
sees the same map size as the lock-free fast path. -/
def AllocateSpace (st : FileState) (minSize : Int) (writeOk remapOk : Bool) :
    Status × FileState :=
  if minSize ≤ st.mapSize then (Status.ok, st)
  else
    let newMapSize :=
      AlignNumber
        (max (max minSize (castMulInt64 st.mapSize st.allocIncFactor))
          PAGE_SIZE) PAGE_SIZE
    if writeOk = false then (sysErr "WriteFile", st)
    else
      let st1 := { st with osLen := max st.osLen newMapSize }
      if remapOk = false then
        (sysErr "RemapMemory", { st1 with handleOpen := false })
      else
        (Status.ok,
         { st1 with mapIsDummy := false, mapVersion := st1.mapVersion + 1,
                    mapSize := newMapSize })

/-- MemoryMapParallelFileImpl::Truncate (src:237-262).  remapOk is the outcome
of RemapMemory, truncOk of TruncateFileInternally. -/
def Truncate (st : FileState) (size : Int) (remapOk truncOk : Bool) :
    Status × FileState :=
  if st.handleOpen = false then (precond "not opened file", st)
  else if st.writable = false then (precond "not writable file", st)
  else
    let newMapSize :=
      AlignNumber (max (max size PAGE_SIZE) st.allocInitSize) PAGE_SIZE
    if remapOk = false then
      (sysErr "RemapMemory", { st with handleOpen := false })
    else
      let st1 := { st with mapIsDummy := false,
                           mapVersion := st.mapVersion + 1,
                           mapSize := newMapSize }
      if truncOk = false then (sysErr "TruncateFile", st1)
      else (Status.ok, { st1 with osLen := newMapSize, fileSize := size })

/-- MemoryMapParallelFileImpl::TruncateFakely (src:264-273). -/
def TruncateFakely (st : FileState) (size : Int) : Status × FileState :=
  if st.handleOpen = false then (precond "not opened file", st)
  else if st.mapSize < size then
    (infeasible "unable to increase the file size", st)
  else (Status.ok, { st with fileSize := size })

/-- MemoryMapParallelFileImpl::Synchronize (src:275-295).  truncOk is the
outcome of TruncateFileInternally, flushViewOk of FlushViewOfFile, flushFileOk
of FlushFileBuffers; off and size are accepted and ignored as in the source. -/
def Synchronize (st : FileState) (hard : Bool) (_off _size : Int)
    (truncOk flushViewOk flushFileOk : Bool) : Status × FileState :=
  if st.handleOpen = false then (precond "not opened file", st)
  else if st.writable = false then (precond "not writable file", st)
  else
    let st1 := { st with mapSize := st.fileSize }
    let s1 := if truncOk = false then Status.accum Status.ok (sysErr "TruncateFile")
              else Status.ok
    let st2 := if truncOk = true then { st1 with osLen := st1.mapSize } else st1
    let s2 := if hard = true ∧ flushViewOk = false then
                Status.accum s1 (sysErr "MapViewOfFile") else s1
    let s3 := if hard = true ∧ flushFileOk = false then
                Status.accum s2 (sysErr "FlushFileBuffers") else s2
    (s3, st2)

/-- MemoryMapParallelFileImpl::GetSize (src:297-303); the out parameter is
returned as an Option. -/
def GetSize (st : FileState) : Status × Option Int :=
  if st.handleOpen = false then (precond "not opened file", none)
  else (Status.ok, some st.fileSize)

/-- MemoryMapParallelFileImpl::SetAllocationStrategy (src:305-312).  The guard
in the source tests file_handle_ == nullptr while its message reads "alread
opened file". -/
def SetAllocationStrategy (st : FileState) (initSize : Int) (incFactor : ℚ) :
    Status × FileState :=
  if st.handleOpen = false then (precond "alread opened file", st)
  else
    (Status.ok, { st with allocInitSize := initSize,
                          allocIncFactor := incFactor })

/-- MemoryMapParallelFileImpl::GetPath (src:318-327). -/
def GetPath (st : FileState) : Status × Option String :=
  if st.handleOpen = false then (precond "not opened file", none)
  else if st.path = "" then (precond "disabled path operatione", none)
  else (Status.ok, some st.path)

/-- MemoryMapParallelFileImpl::Rename (src:329-341); renameOk is the outcome of
RenameFile. -/
def Rename (st : FileState) (newPath : String) (renameOk : Bool) :
    Status × FileState :=
  if st.handleOpen = false then (precond "not opened file", st)
  else if st.path = "" then (precond "disabled path operatione", st)
  else if renameOk = false then (sysErr "RenameFile", st)
  else (Status.ok, { st with path := newPath })

/-- MemoryMapParallelFileImpl::DisablePathOperations (src:343-349). -/
def DisablePathOperations (st : FileState) : Status × FileState :=
  if st.handleOpen = false then (precond "not opened file", st)
  else (Status.ok, { st with path := "" })

/-- MemoryMapParallelFile::Zone::Zone (src:511-569), sequential reduction: the
compare-exchange loops run without interference, so the weak-CAS retry chain
ends in the single-thread update.  Returns (status, off_, size_, state); the
Zone fields off_ and size_ stay -1 and 0 on failure as in the source. -/
def Zone (st : FileState) (writable : Bool) (off size : Int)
    (writeOk remapOk : Bool) : Status × Int × Int × FileState :=
  if st.handleOpen = false then (precond "not opened file", -1, 0, st)
  else if writable = true then
    if st.writable = false then (precond "not writable file", -1, 0, st)
    else if off < 0 then
      let oldFileSize := st.fileSize
      let endPosition := oldFileSize + size
      let r := AllocateSpace st endPosition writeOk remapOk
      if r.1.code ≠ StatusCode.success then (r.1, -1, 0, r.2)
      else
        (Status.ok, oldFileSize, size, { r.2 with fileSize := endPosition })
    else
      let endPosition := off + size
      let r := AllocateSpace st endPosition writeOk remapOk
      if r.1.code ≠ StatusCode.success then (r.1, -1, 0, r.2)
      else
        (Status.ok, off, size,
         { r.2 with fileSize := max r.2.fileSize endPosition })
  else
    if off < 0 then (precond "negative offset", -1, 0, st)
    else if st.fileSize < off then (infeasible "excessive offset", -1, 0, st)
    else (Status.ok, off, min size (st.fileSize - off), st)

/-- MemoryMapParallelFile::Read (src:401-413). -/
def Read (st : FileState) (off size : Int) : Status × FileState :=
  let r := Zone st false off size true true
  if r.1.code ≠ StatusCode.success then (r.1, r.2.2.2)
  else if r.2.2.1 ≠ size then (infeasible "excessive size", r.2.2.2)
  else (Status.ok, r.2.2.2)

/-- MemoryMapParallelFile::Write (src:426-435). -/
def Write (st : FileState) (off size : Int) (writeOk remapOk : Bool) :
    Status × FileState :=
  let r := Zone st true off size writeOk remapOk
  (r.1, r.2.2.2)

/-- MemoryMapParallelFile::Append (src:437-449); returns the reserved offset. -/
def Append (st : FileState) (size : Int) (writeOk remapOk : Bool) :
    Status × Int × FileState :=
  let r := Zone st true (-1) size writeOk remapOk
  (r.1, r.2.1, r.2.2.2)

/-- MemoryMapParallelFile::Expand (src:451-462); like Append without the data
copy. -/
def Expand (st : FileState) (incSize : Int) (writeOk remapOk : Bool) :
    Status × Int × FileState :=
  let r := Zone st true (-1) incSize writeOk remapOk
  (r.1, r.2.1, r.2.2.2)

/-- A sequence of Append calls whose OS calls all succeed; returns the list of
(status, offset) pairs in call order together with the final state. -/
def AppendMany : FileState → List Int → List (Status × Int) × FileState
  | st, [] => ([], st)
  | st, size :: rest =>
      let r := Append st size true true
      let r2 := AppendMany r.2.2 rest
      ((r.1, r.2.1) :: r2.1, r2.2)

end MemoryMapParallelFileImpl

namespace MemoryMapAtomicFileImpl

/-- MemoryMapAtomicFileImpl::Open (src:636-739); the whole call runs under the
exclusive lock, otherwise identical to the Parallel variant. -/
def Open (st : FileState) (path : String) (writable : Bool) (options : Int)
    (createOk lockOk sizeOk : Bool) (osLen : Int) (mapOk : Bool) :
    Status × FileState :=
  if st.handleOpen = true then (precond "opened file", st)
  else if createOk = false then (sysErr "CreateFile", st)
  else if lockOk = false then (sysErr "LockFileEx", st)
  else if sizeOk = false then (sysErr "GetFileSizeEx", st)
  else if MAX_MEMORY_SIZE < osLen then (infeasible "too large file", st)
  else
    let mapSize := if writable = true then max osLen st.allocInitSize else osLen
    if 0 < mapSize ∧ mapOk = false then (sysErr "CreateFileMapping", st)
    else
      (Status.ok,
       { st with handleOpen := true, path := path, fileSize := osLen,
                 mapIsDummy := decide (mapSize ≤ 0),
                 mapVersion := st.mapVersion + 1, mapSize := mapSize,
                 writable := writable, openOptions := options, osLen := osLen })

/-- MemoryMapAtomicFileImpl::Close (src:741-790). -/
def Close (st : FileState) (unmapOk closeMapOk truncOk unlockOk closeOk : Bool) :
    Status × FileState :=
  if st.handleOpen = false then (precond "not opened file", st)
  else
    let s1 := if st.mapIsDummy = false ∧ unmapOk = false then
                Status.accum Status.ok (sysErr "UnmapViewOfFile") else Status.ok
    let s2 := if st.mapIsDummy = false ∧ closeMapOk = false then
                Status.accum s1 (sysErr "CloseHandle") else s1
    let s3 := if st.writable = true ∧ truncOk = false then
                Status.accum s2 (sysErr "TruncateFile") else s2
    let osLen2 := if st.writable = true ∧ truncOk = true then st.fileSize
                  else st.osLen
    let s4 := if unlockOk = false then Status.accum s3 (sysErr "UnlockFileEx")
              else s3
    let s5 := if closeOk = false then Status.accum s4 (sysErr "CloseHandle")
              else s4
    (s5,
     { st with handleOpen := false, path := "", fileSize := 0,
               mapIsDummy := false, mapSize := 0, writable := false,
               openOptions := 0, osLen := osLen2 })

/-- MemoryMapAtomicFileImpl::AllocateSpace (src:914-935); runs under the lock
already held by the writer Zone, with no fast-path double check. -/
def AllocateSpace (st : FileState) (minSize : Int) (writeOk remapOk : Bool) :
    Status × FileState :=
  if minSize ≤ st.mapSize then (Status.ok, st)
  else
    let newMapSize :=
      AlignNumber
        (max (max minSize (castMulInt64 st.mapSize st.allocIncFactor))
          PAGE_SIZE) PAGE_SIZE
    if writeOk = false then (sysErr "WriteFile", st)
    else
      let st1 := { st with osLen := max st.osLen newMapSize }
      if remapOk = false then
        (sysErr "RemapMemory", { st1 with handleOpen := false })
      else
        (Status.ok,
         { st1 with mapIsDummy := false, mapVersion := st1.mapVersion + 1,
                    mapSize := newMapSize })

/-- MemoryMapAtomicFileImpl::Truncate (src:792-818). -/
def Truncate (st : FileState) (size : Int) (remapOk truncOk : Bool) :
    Status × FileState :=
  if st.handleOpen = false then (precond "not opened file", st)
  else if st.writable = false then (precond "not writable file", st)
  else
    let newMapSize :=
      AlignNumber (max (max size PAGE_SIZE) st.allocInitSize) PAGE_SIZE
    if remapOk = false then
      (sysErr "RemapMemory", { st with handleOpen := false })
    else
      let st1 := { st with mapIsDummy := false,
                           mapVersion := st.mapVersion + 1,
                           mapSize := newMapSize }
      if truncOk = false then (sysErr "TruncateFile", st1)
      else (Status.ok, { st1 with osLen := newMapSize, fileSize := size })

/-- MemoryMapAtomicFileImpl::TruncateFakely (src:820-830). -/
def TruncateFakely (st : FileState) (size : Int) : Status × FileState :=
  if st.handleOpen = false then (precond "not opened file", st)
  else if st.mapSize < size then
    (infeasible "unable to increase the file size", st)
  else (Status.ok, { st with fileSize := size })

/-- MemoryMapAtomicFileImpl::Synchronize (src:832-852). -/
def Synchronize (st : FileState) (hard : Bool) (_off _size : Int)
    (truncOk flushViewOk flushFileOk : Bool) : Status × FileState :=
  if st.handleOpen = false then (precond "not opened file", st)
  else if st.writable = false then (precond "not writable file", st)
  else
    let st1 := { st with mapSize := st.fileSize }
    let s1 := if truncOk = false then Status.accum Status.ok (sysErr "TruncateFile")
              else Status.ok
    let st2 := if truncOk = true then { st1 with osLen := st1.mapSize } else st1
    let s2 := if hard = true ∧ flushViewOk = false then
                Status.accum s1 (sysErr "MapViewOfFile") else s1
    let s3 := if hard = true ∧ flushFileOk = false then
                Status.accum s2 (sysErr "FlushFileBuffers") else s2
    (s3, st2)

/-- MemoryMapAtomicFileImpl::GetSize (src:854-861). -/
def GetSize (st : FileState) : Status × Option Int :=
  if st.handleOpen = false then (precond "not opened file", none)
  else (Status.ok, some st.fileSize)

/-- MemoryMapAtomicFileImpl::SetAllocationStrategy (src:863-871); same guard
inversion as the Parallel variant: the test is file_handle_ == nullptr while
the message reads "alread opened file". -/
def SetAllocationStrategy (st : FileState) (initSize : Int) (incFactor : ℚ) :
    Status × FileState :=
  if st.handleOpen = false then (precond "alread opened file", st)
  else
    (Status.ok, { st with allocInitSize := initSize,
                          allocIncFactor := incFactor })

/-- MemoryMapAtomicFileImpl::GetPath (src:878-888). -/
def GetPath (st : FileState) : Status × Option String :=
  if st.handleOpen = false then (precond "not opened file", none)
  else if st.path = "" then (precond "disabled path operatione", none)
  else (Status.ok, some st.path)

/-- MemoryMapAtomicFileImpl::Rename (src:890-903). -/
def Rename (st : FileState) (newPath : String) (renameOk : Bool) :
    Status × FileState :=
  if st.handleOpen = false then (precond "not opened file", st)
  else if st.path = "" then (precond "disabled path operatione", st)
  else if renameOk = false then (sysErr "RenameFile", st)
  else (Status.ok, { st with path := newPath })

/-- MemoryMapAtomicFileImpl::DisablePathOperations (src:905-912). -/
def DisablePathOperations (st : FileState) : Status × FileState :=
  if st.handleOpen = false then (precond "not opened file", st)
  else (Status.ok, { st with path := "" })

/-- MemoryMapAtomicFile::Zone::Zone (src:1070-1110); the whole acquisition runs
under the exclusive (writer) or shared (reader) lock.  Writer append sets
off = file_size, allocates, then file_size = max(file_size, off + size). -/
def Zone (st : FileState) (writable : Bool) (off size : Int)
    (writeOk remapOk : Bool) : Status × Int × Int × FileState :=
  if st.handleOpen = false then (precond "not opened file", -1, 0, st)
  else if writable = true then
    if st.writable = false then (precond "not writable file", -1, 0, st)
    else
      let off2 := if off < 0 then st.fileSize else off
      let endPosition := off2 + size
      let r := AllocateSpace st endPosition writeOk remapOk
      if r.1.code ≠ StatusCode.success then (r.1, -1, 0, r.2)
      else
        (Status.ok, off2, size,
         { r.2 with fileSize := max r.2.fileSize endPosition })
  else
    if off < 0 then (precond "negative offset", -1, 0, st)
    else if st.fileSize < off then (infeasible "excessive offset", -1, 0, st)
    else (Status.ok, off, min size (st.fileSize - off), st)

/-- MemoryMapAtomicFile::Read (src:960-972). -/
def Read (st : FileState) (off size : Int) : Status × FileState :=
  let r := Zone st false off size true true
  if r.1.code ≠ StatusCode.success then (r.1, r.2.2.2)
  else if r.2.2.1 ≠ size then (infeasible "excessive size", r.2.2.2)
  else (Status.ok, r.2.2.2)

/-- MemoryMapAtomicFile::Write (src:985-994). -/
def Write (st : FileState) (off size : Int) (writeOk remapOk : Bool) :
    Status × FileState :=
  let r := Zone st true off size writeOk remapOk
  (r.1, r.2.2.2)

/-- MemoryMapAtomicFile::Append (src:996-1008); returns the reserved offset. -/
def Append (st : FileState) (size : Int) (writeOk remapOk : Bool) :
    Status × Int × FileState :=
  let r := Zone st true (-1) size writeOk remapOk
  (r.1, r.2.1, r.2.2.2)

/-- MemoryMapAtomicFile::Expand (src:1010-1021). -/
def Expand (st : FileState) (incSize : Int) (writeOk remapOk : Bool) :
    Status × Int × FileState :=
  let r := Zone st true (-1) incSize writeOk remapOk
  (r.1, r.2.1, r.2.2.2)

/-- A sequence of Append calls whose OS calls all succeed. -/
def AppendMany : FileState → List Int → List (Status × Int) × FileState
  | st, [] => ([], st)
  | st, size :: rest =>
      let r := Append st size true true
      let r2 := AppendMany r.2.2 rest
      ((r.1, r.2.1) :: r2.1, r2.2)

end MemoryMapAtomicFileImpl

/-- The spec's growth scenario state: SetAllocationStrategy(4096, 2.0) followed
by two 6000-byte appends, so file_size 12000 and map_size 16384. -/
def sampleOpenW : FileState :=
  { handleOpen := true, path := "/tmp/a", fileSize := 12000, mapIsDummy := false,
    mapVersion := 1, mapSize := 16384, writable := true, openOptions := 0,
    allocInitSize := 4096, allocIncFactor := 2, osLen := 16384 }

/-- An open zero-length read-only file: the zero-size map is the dummy
sentinel. -/
def sampleOpenEmptyRO : FileState :=
  { handleOpen := true, path := "/tmp/a", fileSize := 0, mapIsDummy := true,
    mapVersion := 1, mapSize := 0, writable := false, openOptions := 0,
    allocInitSize := DEFAULT_ALLOC_INIT_SIZE,
    allocIncFactor := DEFAULT_ALLOC_INC_FACTOR, osLen := 0 }

/-- An open read-only file of 5000 bytes (map_size equals the file length for
read-only opens). -/
def sampleOpenRO : FileState :=
  { handleOpen := true, path := "/tmp/a", fileSize := 5000, mapIsDummy := false,
    mapVersion := 1, mapSize := 5000, writable := false, openOptions := 0,
    allocInitSize := DEFAULT_ALLOC_INIT_SIZE,
    allocIncFactor := DEFAULT_ALLOC_INC_FACTOR, osLen := 5000 }

/-- A freshly created writable file after SetAllocationStrategy(4096, 2.0):
logical size 0, map one page. -/
def sampleFreshW : FileState :=
  { handleOpen := true, path := "/tmp/a", fileSize := 0, mapIsDummy := false,
    mapVersion := 1, mapSize := 4096, writable := true, openOptions := 0,
    allocInitSize := 4096, allocIncFactor := 2, osLen := 4096 }

/-- Expected offsets of a run of appends: running prefix sums of the sizes
starting at the initial logical size. -/
def offsetsFrom (base : Int) : List Int → List Int
  | [] => []
  | s :: rest => base :: offsetsFrom (base + s) rest

/-- The size invariant of the spec: whenever the handle is set, the logical
size lies between 0 and the backing map size. -/
def SizeInv (st : FileState) : Prop :=
  st.handleOpen = true → 0 ≤ st.fileSize ∧ st.fileSize ≤ st.mapSize

/-- The page-aligned growth target computed by AllocateSpace:
max(min_size, map_size * alloc_inc_factor, page_size) rounded up to a page
boundary. -/
def growSize (st : FileState) (minSize : Int) : Int :=
  AlignNumber
    (max (max minSize (castMulInt64 st.mapSize st.allocIncFactor))
      PAGE_SIZE) PAGE_SIZE

/-- The page-aligned map size computed by Truncate:
max(size, page_size, alloc_init_size) rounded up to a page boundary. -/
def truncSize (st : FileState) (size : Int) : Int :=
  AlignNumber (max (max size PAGE_SIZE) st.allocInitSize) PAGE_SIZE

/-- Rounding up to the page size yields a page multiple at least as large as
the input. -/
theorem alignPage_spec (n : Int) :
    n ≤ AlignNumber n PAGE_SIZE ∧ AlignNumber n PAGE_SIZE % PAGE_SIZE = 0 := by
  unfold AlignNumber PAGE_SIZE
  omega

/-- C1: the claim states that SetAllocationStrategy fails with
PRECONDITION_ERROR on an open file and on a closed file updates the growth
parameters and returns SUCCESS.  In both impls the guard is inverted: the
source tests file_handle_ == nullptr (closed) yet carries the message "alread
opened file", so a closed file gets PRECONDITION_ERROR with no update and an
open file gets SUCCESS with an update, contradicting the claim, the spec and
the code's own diagnostic message. -/
theorem C1_setAllocationStrategy_guard_inverted :
    (MemoryMapParallelFileImpl.SetAllocationStrategy FileState.initial 8192 2).1
        = precond "alread opened file" ∧
    (MemoryMapParallelFileImpl.SetAllocationStrategy FileState.initial 8192 2).2
        = FileState.initial ∧
    (MemoryMapParallelFileImpl.SetAllocationStrategy sampleOpenW 8192 2).1.code
        = StatusCode.success ∧
    (MemoryMapParallelFileImpl.SetAllocationStrategy sampleOpenW 8192 2).2.allocInitSize
        = 8192 ∧
    (MemoryMapAtomicFileImpl.SetAllocationStrategy FileState.initial 8192 2).1
        = precond "alread opened file" ∧
    (MemoryMapAtomicFileImpl.SetAllocationStrategy FileState.initial 8192 2).2
        = FileState.initial ∧
    (MemoryMapAtomicFileImpl.SetAllocationStrategy sampleOpenW 8192 2).1.code
        = StatusCode.success ∧
    (MemoryMapAtomicFileImpl.SetAllocationStrategy sampleOpenW 8192 2).2.allocInitSize
        = 8192 := by
  decide

/-- C5: on an open file TruncateFakely(size) returns INFEASIBLE_ERROR and
changes nothing (neither the logical size, the mapping, nor the OS file) when
size exceeds map_size, and otherwise sets only file_size to size and returns
SUCCESS, in both variants. -/
theorem C5_truncateFakely (st : FileState) (h : st.handleOpen = true)
    (size : Int) :
    (st.mapSize < size →
       MemoryMapParallelFileImpl.TruncateFakely st size
         = (infeasible "unable to increase the file size", st) ∧
       MemoryMapAtomicFileImpl.TruncateFakely st size
         = (infeasible "unable to increase the file size", st)) ∧
    (size ≤ st.mapSize →
       MemoryMapParallelFileImpl.TruncateFakely st size
         = (Status.ok, { st with fileSize := size }) ∧
       MemoryMapAtomicFileImpl.TruncateFakely st size
         = (Status.ok, { st with fileSize := size })) := by
  unfold MemoryMapParallelFileImpl.TruncateFakely
    MemoryMapAtomicFileImpl.TruncateFakely
  constructor
  · intro hgt
    rw [if_neg (by simp [h]), if_pos hgt]
    exact ⟨rfl, rfl⟩
  · intro hle
    rw [if_neg (by simp [h]), if_neg (by omega)]
    exact ⟨rfl, rfl⟩

/-- C5 witness: the spec's concrete scenario, map_size 16384 and file_size
12000; TruncateFakely(15000) succeeds setting file_size to 15000 while
TruncateFakely(20000) fails with INFEASIBLE_ERROR leaving file_size 12000. -/
theorem C5_truncateFakely_witness :
    (MemoryMapParallelFileImpl.TruncateFakely sampleOpenW 15000).1
        = Status.ok ∧
    (MemoryMapParallelFileImpl.TruncateFakely sampleOpenW 15000).2.fileSize
        = 15000 ∧
    (MemoryMapParallelFileImpl.TruncateFakely sampleOpenW 20000).1.code
        = StatusCode.infeasibleError ∧
    (MemoryMapParallelFileImpl.TruncateFakely sampleOpenW 20000).2.fileSize
        = 12000 ∧
    (MemoryMapAtomicFileImpl.TruncateFakely sampleOpenW 15000).2.fileSize
        = 15000 ∧
    (MemoryMapAtomicFileImpl.TruncateFakely sampleOpenW 20000).2.fileSize
        = 12000 := by
  have h1 := (C5_truncateFakely sampleOpenW rfl 15000).2 (by decide)
  have h2 := (C5_truncateFakely sampleOpenW rfl 20000).1 (by decide)
  refine ⟨?_, ?_, ?_, ?_, ?_, ?_⟩
  · rw [h1.1]
  · rw [h1.1]
  · rw [h2.1]; rfl
  · rw [h2.1]; rfl
  · rw [h1.2]
  · rw [h2.2]; rfl

/-- C10: Synchronize on a file opened read-only fails with PRECONDITION_ERROR
("not writable file") and leaves the whole state (logical size, map, OS file)
unchanged, in both variants. -/
theorem C10_synchronize_readonly (st : FileState) (h : st.handleOpen = true)
    (hro : st.writable = false) (hard : Bool) (off size : Int)
    (truncOk flushViewOk flushFileOk : Bool) :
    MemoryMapParallelFileImpl.Synchronize st hard off size
        truncOk flushViewOk flushFileOk = (precond "not writable file", st) ∧
    MemoryMapAtomicFileImpl.Synchronize st hard off size
        truncOk flushViewOk flushFileOk = (precond "not writable file", st) := by
  unfold MemoryMapParallelFileImpl.Synchronize MemoryMapAtomicFileImpl.Synchronize
  rw [if_neg (by simp [h]), if_pos (by simp [hro])]
  exact ⟨rfl, rfl⟩

/-- C10 witness: Synchronize on the 5000-byte read-only file fails with
PRECONDITION_ERROR and changes nothing. -/
theorem C10_synchronize_readonly_witness :
    MemoryMapParallelFileImpl.Synchronize sampleOpenRO true 0 0 true true true
        = (precond "not writable file", sampleOpenRO) ∧
    MemoryMapAtomicFileImpl.Synchronize sampleOpenRO true 0 0 true true true
        = (precond "not writable file", sampleOpenRO) :=
  C10_synchronize_readonly sampleOpenRO rfl rfl true 0 0 true true true

/-- The Atomic variant's AllocateSpace coincides sequentially with the
Parallel one; the sources differ only in how the lock is held. -/
theorem amf_allocateSpace_eq :
    MemoryMapAtomicFileImpl.AllocateSpace
      = MemoryMapParallelFileImpl.AllocateSpace := rfl

/-- The Atomic variant's Truncate coincides sequentially with the Parallel
one. -/
theorem amf_truncate_eq :
    MemoryMapAtomicFileImpl.Truncate = MemoryMapParallelFileImpl.Truncate := rfl

/-- Successful growth path of AllocateSpace: when min_size exceeds map_size and
both OS calls succeed, the map grows to growSize and the OS file is extended
to cover it; no other field but the map bookkeeping changes. -/
theorem allocateSpace_grow_pmf (st : FileState) (minSize : Int)
    (hg : st.mapSize < minSize) :
    MemoryMapParallelFileImpl.AllocateSpace st minSize true true
      = (Status.ok,
         { st with osLen := max st.osLen (growSize st minSize),
                   mapIsDummy := false, mapVersion := st.mapVersion + 1,
                   mapSize := growSize st minSize }) := by
  unfold MemoryMapParallelFileImpl.AllocateSpace growSize
  rw [if_neg (by omega)]
  rfl

/-- Bounds of the growth target: it is a page multiple, at least min_size, and
strictly larger than the old map size when growth is triggered. -/
theorem growSize_bounds (st : FileState) (minSize : Int) :
    minSize ≤ growSize st minSize ∧ growSize st minSize % PAGE_SIZE = 0 ∧
    (st.mapSize < minSize → st.mapSize < growSize st minSize) := by
  have hal := alignPage_spec
    (max (max minSize (castMulInt64 st.mapSize st.allocIncFactor))
      PAGE_SIZE)
  have hm : minSize ≤
      max (max minSize (castMulInt64 st.mapSize st.allocIncFactor))
        PAGE_SIZE :=
    le_trans (le_max_left _ _) (le_max_left _ _)
  refine ⟨le_trans hm hal.1, hal.2, fun hlt => lt_of_lt_of_le hlt (le_trans hm hal.1)⟩

/-- Successful path of Truncate: the map and the OS file take the page-aligned
truncSize and the logical size becomes the requested size. -/
theorem truncate_ok_pmf (st : FileState) (h : st.handleOpen = true)
    (hw : st.writable = true) (size : Int) :
    MemoryMapParallelFileImpl.Truncate st size true true
      = (Status.ok,
         { st with mapIsDummy := false, mapVersion := st.mapVersion + 1,
                   mapSize := truncSize st size, osLen := truncSize st size,
                   fileSize := size }) := by
  unfold MemoryMapParallelFileImpl.Truncate truncSize
  rw [if_neg (by simp [h]), if_neg (by simp [hw])]
  rfl

/-- Bounds of the Truncate target: a page multiple at least
max(size, page_size, alloc_init_size). -/
theorem truncSize_bounds (st : FileState) (size : Int) :
    max (max size PAGE_SIZE) st.allocInitSize ≤ truncSize st size ∧
    truncSize st size % PAGE_SIZE = 0 := by
  have hal := alignPage_spec (max (max size PAGE_SIZE) st.allocInitSize)
  exact ⟨hal.1, hal.2⟩

/-- C8: AllocateSpace(min_size) returns SUCCESS without any state change when
min_size ≤ map_size; otherwise, with both OS calls succeeding, it sets
map_size to max(min_size, map_size * alloc_inc_factor, page_size) rounded up
to a page boundary — a page multiple that is ≥ min_size and larger than the
old map_size — after the one-byte positional write at new size minus one
extended the OS file to the new size; this holds for both variants. -/
theorem C8_allocateSpace (st : FileState) (minSize : Int) :
    (minSize ≤ st.mapSize →
       MemoryMapParallelFileImpl.AllocateSpace st minSize true true
         = (Status.ok, st) ∧
       MemoryMapAtomicFileImpl.AllocateSpace st minSize true true
         = (Status.ok, st)) ∧
    (st.mapSize < minSize →
       MemoryMapParallelFileImpl.AllocateSpace st minSize true true
         = (Status.ok,
            { st with osLen := max st.osLen (growSize st minSize),
                      mapIsDummy := false, mapVersion := st.mapVersion + 1,
                      mapSize := growSize st minSize }) ∧
       MemoryMapAtomicFileImpl.AllocateSpace st minSize true true
         = (Status.ok,
            { st with osLen := max st.osLen (growSize st minSize),
                      mapIsDummy := false, mapVersion := st.mapVersion + 1,
                      mapSize := growSize st minSize }) ∧
       minSize ≤ growSize st minSize ∧ st.mapSize < growSize st minSize ∧
       growSize st minSize % PAGE_SIZE = 0) := by
  constructor
  · intro hle
    unfold MemoryMapParallelFileImpl.AllocateSpace MemoryMapAtomicFileImpl.AllocateSpace
    rw [if_pos hle]
    exact ⟨rfl, rfl⟩
  · intro hlt
    have hb := growSize_bounds st minSize
    have he := allocateSpace_grow_pmf st minSize hlt
    refine ⟨he, ?_, hb.1, hb.2.2 hlt, hb.2.1⟩
    rw [amf_allocateSpace_eq]
    exact he

/-- C8 witness: on the growth-scenario state (map_size 16384, factor 2),
AllocateSpace(1000) is a no-op and AllocateSpace(20000) grows the map to
32768 = align(max(20000, 16384 * 2, 4096)). -/
theorem C8_allocateSpace_witness :
    MemoryMapParallelFileImpl.AllocateSpace sampleOpenW 1000 true true
        = (Status.ok, sampleOpenW) ∧
    (MemoryMapParallelFileImpl.AllocateSpace sampleOpenW 20000 true true).2.mapSize
        = 32768 ∧
    (MemoryMapAtomicFileImpl.AllocateSpace sampleOpenW 20000 true true).2.mapSize
        = 32768 ∧
    (MemoryMapParallelFileImpl.AllocateSpace sampleOpenW 20000 true true).2.osLen
        = 32768 := by
  have h1 := (C8_allocateSpace sampleOpenW 1000).1 (by decide)
  have h2 := (C8_allocateSpace sampleOpenW 20000).2 (by decide)
  refine ⟨h1.1, ?_, ?_, ?_⟩
  · rw [h2.1]; decide
  · rw [h2.2.1]; decide
  · rw [h2.1]; decide

/-- C3 counterexample: Truncate(100) on the growth-scenario state (page 4096,
alloc_init_size 4096) succeeds but leaves file_size = 100, which is neither
page-aligned nor ≥ max(size, page_size, alloc_init_size) = 4096; only
map_size receives the aligned value. -/
theorem C3_truncate_counterexample :
    (MemoryMapParallelFileImpl.Truncate sampleOpenW 100 true true).1
        = Status.ok ∧
    (MemoryMapParallelFileImpl.Truncate sampleOpenW 100 true true).2.fileSize
        = 100 ∧
    (MemoryMapParallelFileImpl.Truncate sampleOpenW 100 true true).2.mapSize
        = 4096 ∧
    ¬ ((100 : Int) % PAGE_SIZE = 0) ∧
    ¬ (max (max (100 : Int) PAGE_SIZE) sampleOpenW.allocInitSize ≤ 100) := by
  decide

/-- C3 amended: a successful Truncate(size) on an open writable file sets
map_size (not file_size) to the page-aligned value
≥ max(size, page_size, alloc_init_size), truncates the OS file to that value,
and sets file_size to size; both variants. -/
theorem C3_truncate_amended (st : FileState) (h : st.handleOpen = true)
    (hw : st.writable = true) (size : Int) :
    MemoryMapParallelFileImpl.Truncate st size true true
      = (Status.ok,
         { st with mapIsDummy := false, mapVersion := st.mapVersion + 1,
                   mapSize := truncSize st size, osLen := truncSize st size,
                   fileSize := size }) ∧
    MemoryMapAtomicFileImpl.Truncate st size true true
      = (Status.ok,
         { st with mapIsDummy := false, mapVersion := st.mapVersion + 1,
                   mapSize := truncSize st size, osLen := truncSize st size,
                   fileSize := size }) ∧
    max (max size PAGE_SIZE) st.allocInitSize ≤ truncSize st size ∧
    truncSize st size % PAGE_SIZE = 0 := by
  have he := truncate_ok_pmf st h hw size
  have hb := truncSize_bounds st size
  refine ⟨he, ?_, hb.1, hb.2⟩
  rw [amf_truncate_eq]
  exact he

/-- C3 witness: Truncate(100) on the growth-scenario state yields map_size =
OS length = 4096 and file_size = 100. -/
theorem C3_truncate_amended_witness :
    (MemoryMapParallelFileImpl.Truncate sampleOpenW 100 true true).2.mapSize
        = 4096 ∧
    (MemoryMapParallelFileImpl.Truncate sampleOpenW 100 true true).2.osLen
        = 4096 ∧
    (MemoryMapParallelFileImpl.Truncate sampleOpenW 100 true true).2.fileSize
        = 100 ∧
    (MemoryMapAtomicFileImpl.Truncate sampleOpenW 100 true true).2.fileSize
        = 100 := by
  have h := C3_truncate_amended sampleOpenW rfl rfl 100
  refine ⟨?_, ?_, ?_, ?_⟩
  · rw [h.1]; decide
  · rw [h.1]; decide
  · rw [h.1]
  · rw [h.2.1]

/-- C4 counterexample: Open of an existing 5000-byte file in read-only mode
succeeds and publishes map_size = 5000 — not a page multiple and not the
permitted zero-size read-only exception; Synchronize on the growth-scenario
state likewise stores map_size = file_size = 12000, also not a page multiple,
while the file stays open and writable. -/
theorem C4_map_alignment_counterexample :
    (MemoryMapParallelFileImpl.Open FileState.initial "/tmp/a" false 0
        true true true 5000 true).1 = Status.ok ∧
    (MemoryMapParallelFileImpl.Open FileState.initial "/tmp/a" false 0
        true true true 5000 true).2.handleOpen = true ∧
    (MemoryMapParallelFileImpl.Open FileState.initial "/tmp/a" false 0
        true true true 5000 true).2.mapSize = 5000 ∧
    ¬ ((5000 : Int) % PAGE_SIZE = 0) ∧
    (MemoryMapParallelFileImpl.Synchronize sampleOpenW false 0 0 true true true).1
        = Status.ok ∧
    (MemoryMapParallelFileImpl.Synchronize sampleOpenW false 0 0 true true true).2.mapSize
        = 12000 ∧
    (MemoryMapParallelFileImpl.Synchronize sampleOpenW false 0 0 true true true).2.handleOpen
        = true ∧
    ¬ ((12000 : Int) % PAGE_SIZE = 0) := by
  decide

/-- C4 amended: the page-multiple invariant is established by the remap paths:
after a successful Truncate and after an AllocateSpace that actually grows the
map, map_size is a multiple of the page size (both variants); Open of an
existing file and Synchronize can publish an unaligned map_size equal to the
file length, as the counterexample shows. -/
theorem C4_map_alignment_amended (st : FileState) (h : st.handleOpen = true)
    (hw : st.writable = true) (size minSize : Int) (hg : st.mapSize < minSize) :
    (MemoryMapParallelFileImpl.Truncate st size true true).2.mapSize % PAGE_SIZE
        = 0 ∧
    (MemoryMapAtomicFileImpl.Truncate st size true true).2.mapSize % PAGE_SIZE
        = 0 ∧
    (MemoryMapParallelFileImpl.AllocateSpace st minSize true true).2.mapSize % PAGE_SIZE
        = 0 ∧
    (MemoryMapAtomicFileImpl.AllocateSpace st minSize true true).2.mapSize % PAGE_SIZE
        = 0 := by
  have ht := truncate_ok_pmf st h hw size
  have ha := allocateSpace_grow_pmf st minSize hg
  have hb1 := (truncSize_bounds st size).2
  have hb2 := (growSize_bounds st minSize).2.1
  refine ⟨?_, ?_, ?_, ?_⟩
  · rw [ht]; exact hb1
  · rw [amf_truncate_eq, ht]; exact hb1
  · rw [ha]; exact hb2
  · rw [amf_allocateSpace_eq, ha]; exact hb2

/-- C4 witness: on the growth-scenario state, Truncate(100) gives map_size
4096 and AllocateSpace(20000) gives map_size 32768, both page multiples. -/
theorem C4_map_alignment_amended_witness :
    (MemoryMapParallelFileImpl.Truncate sampleOpenW 100 true true).2.mapSize % PAGE_SIZE
        = 0 ∧
    (MemoryMapParallelFileImpl.AllocateSpace sampleOpenW 20000 true true).2.mapSize % PAGE_SIZE
        = 0 :=
  ⟨(C4_map_alignment_amended sampleOpenW rfl rfl 100 20000 (by decide)).1,
   (C4_map_alignment_amended sampleOpenW rfl rfl 100 20000 (by decide)).2.2.1⟩

/-- For readers (writable = false) the two variants' Zone acquisitions
coincide: the sources differ only in the writer branch and the locking. -/
theorem amf_zone_reader_eq (st : FileState) (off size : Int) (w r : Bool) :
    MemoryMapAtomicFileImpl.Zone st false off size w r
      = MemoryMapParallelFileImpl.Zone st false off size w r := rfl

/-- Read delegates to a reader Zone, so the two variants' Read coincide. -/
theorem amf_read_eq (st : FileState) (off size : Int) :
    MemoryMapAtomicFileImpl.Read st off size
      = MemoryMapParallelFileImpl.Read st off size := rfl

/-- Reader Zone acquisition on an open file: negative offset is rejected with
PRECONDITION_ERROR, an offset past the logical end with INFEASIBLE_ERROR, and
otherwise the zone clamps its size to file_size - off. -/
theorem zone_reader_pmf (st : FileState) (h : st.handleOpen = true)
    (off size : Int) :
    (off < 0 →
       MemoryMapParallelFileImpl.Zone st false off size true true
         = (precond "negative offset", -1, 0, st)) ∧
    (0 ≤ off → st.fileSize < off →
       MemoryMapParallelFileImpl.Zone st false off size true true
         = (infeasible "excessive offset", -1, 0, st)) ∧
    (0 ≤ off → off ≤ st.fileSize →
       MemoryMapParallelFileImpl.Zone st false off size true true
         = (Status.ok, off, min size (st.fileSize - off), st)) := by
  unfold MemoryMapParallelFileImpl.Zone
  refine ⟨?_, ?_, ?_⟩
  · intro hneg
    rw [if_neg (by simp [h]), if_neg (by simp), if_pos hneg]
  · intro hpos hgt
    rw [if_neg (by simp [h]), if_neg (by simp), if_neg (by omega),
        if_pos hgt]
  · intro hpos hle
    rw [if_neg (by simp [h]), if_neg (by simp), if_neg (by omega),
        if_neg (by omega)]

/-- Read on an open file fails with INFEASIBLE_ERROR exactly when the clamped
size min(size, file_size - off) is less than the requested size, succeeds
exactly otherwise, and never mutates the state. -/
theorem read_spec_pmf (st : FileState) (h : st.handleOpen = true)
    (off size : Int) (hoff : 0 ≤ off) (hsize : 0 ≤ size) :
    ((MemoryMapParallelFileImpl.Read st off size).1.code
        = StatusCode.infeasibleError ↔ min size (st.fileSize - off) < size) ∧
    ((MemoryMapParallelFileImpl.Read st off size).1.code
        = StatusCode.success ↔ size ≤ st.fileSize - off) ∧
    (MemoryMapParallelFileImpl.Read st off size).2 = st := by
  have hz := zone_reader_pmf st h off size
  by_cases hgt : st.fileSize < off
  · have hr : MemoryMapParallelFileImpl.Read st off size
        = (infeasible "excessive offset", st) := by
      unfold MemoryMapParallelFileImpl.Read
      rw [hz.2.1 hoff hgt, if_pos (by simp [infeasible])]
    rw [hr]
    refine ⟨?_, ?_, rfl⟩
    · constructor
      · intro _
        exact lt_of_le_of_lt (min_le_right _ _) (by omega)
      · intro _; rfl
    · constructor
      · intro hc; exact absurd hc (by simp [infeasible])
      · intro hc; omega
  · have hzr := hz.2.2 hoff (le_of_not_lt hgt)
    by_cases hm : min size (st.fileSize - off) = size
    · have hr : MemoryMapParallelFileImpl.Read st off size = (Status.ok, st) := by
        unfold MemoryMapParallelFileImpl.Read
        rw [hzr, if_neg (by simp [Status.ok]), if_neg (by simpa using hm)]
      rw [hr]
      refine ⟨?_, ?_, rfl⟩
      · constructor
        · intro hc; exact absurd hc (by simp [Status.ok])
        · intro hlt
          rw [hm] at hlt
          exact absurd hlt (lt_irrefl _)
      · constructor
        · intro _; exact min_eq_left_iff.mp hm
        · intro _; rfl
    · have hr : MemoryMapParallelFileImpl.Read st off size
          = (infeasible "excessive size", st) := by
        unfold MemoryMapParallelFileImpl.Read
        rw [hzr, if_neg (by simp [Status.ok]), if_pos (by simpa using hm)]
      rw [hr]
      refine ⟨?_, ?_, rfl⟩
      · constructor
        · intro _; exact lt_of_le_of_ne (min_le_left _ _) hm
        · intro _; rfl
      · constructor
        · intro hc; exact absurd hc (by simp [infeasible])
        · intro hc; exact absurd (min_eq_left hc) hm

/-- C6: reader Zone acquisition on an open file rejects off < 0 with
PRECONDITION_ERROR, rejects off > file_size with INFEASIBLE_ERROR, and
otherwise clamps the zone size to file_size - off; consequently Read fails
with INFEASIBLE_ERROR exactly when the clamped size min(size, file_size - off)
is shorter than the requested size and succeeds exactly otherwise, in both
variants, with no state change. -/
theorem C6_reader_zone_and_read (st : FileState) (h : st.handleOpen = true)
    (off size : Int) (hsize : 0 ≤ size) :
    (off < 0 →
       MemoryMapParallelFileImpl.Zone st false off size true true
         = (precond "negative offset", -1, 0, st) ∧
       MemoryMapAtomicFileImpl.Zone st false off size true true
         = (precond "negative offset", -1, 0, st)) ∧
    (0 ≤ off → st.fileSize < off →
       MemoryMapParallelFileImpl.Zone st false off size true true
         = (infeasible "excessive offset", -1, 0, st) ∧
       MemoryMapAtomicFileImpl.Zone st false off size true true
         = (infeasible "excessive offset", -1, 0, st)) ∧
    (0 ≤ off → off ≤ st.fileSize →
       MemoryMapParallelFileImpl.Zone st false off size true true
         = (Status.ok, off, min size (st.fileSize - off), st) ∧
       MemoryMapAtomicFileImpl.Zone st false off size true true
         = (Status.ok, off, min size (st.fileSize - off), st)) ∧
    (0 ≤ off →
       ((MemoryMapParallelFileImpl.Read st off size).1.code
           = StatusCode.infeasibleError ↔ min size (st.fileSize - off) < size) ∧
       ((MemoryMapParallelFileImpl.Read st off size).1.code
           = StatusCode.success ↔ size ≤ st.fileSize - off) ∧
       MemoryMapAtomicFileImpl.Read st off size
         = MemoryMapParallelFileImpl.Read st off size ∧
       (MemoryMapParallelFileImpl.Read st off size).2 = st) := by
  have hz := zone_reader_pmf st h off size
  refine ⟨?_, ?_, ?_, ?_⟩
  · intro hneg
    exact ⟨hz.1 hneg, by rw [amf_zone_reader_eq]; exact hz.1 hneg⟩
  · intro hpos hgt
    exact ⟨hz.2.1 hpos hgt, by rw [amf_zone_reader_eq]; exact hz.2.1 hpos hgt⟩
  · intro hpos hle
    exact ⟨hz.2.2 hpos hle, by rw [amf_zone_reader_eq]; exact hz.2.2 hpos hle⟩
  · intro hpos
    have hr := read_spec_pmf st h off size hpos hsize
    exact ⟨hr.1, hr.2.1, amf_read_eq st off size, hr.2.2⟩

/-- C6 witness: on the open empty read-only file, reading zero bytes at offset
0 succeeds and reading one byte fails with INFEASIBLE_ERROR; a negative offset
gives PRECONDITION_ERROR and offset 1 (past the end) INFEASIBLE_ERROR. -/
theorem C6_reader_zone_and_read_witness :
    (MemoryMapParallelFileImpl.Read sampleOpenEmptyRO 0 0).1.code
        = StatusCode.success ∧
    (MemoryMapParallelFileImpl.Read sampleOpenEmptyRO 0 1).1.code
        = StatusCode.infeasibleError ∧
    MemoryMapParallelFileImpl.Zone sampleOpenEmptyRO false (-1) 1 true true
      = (precond "negative offset", -1, 0, sampleOpenEmptyRO) ∧
    MemoryMapParallelFileImpl.Zone sampleOpenEmptyRO false 1 1 true true
      = (infeasible "excessive offset", -1, 0, sampleOpenEmptyRO) := by
  have h0 := (C6_reader_zone_and_read sampleOpenEmptyRO rfl 0 0 (by decide)).2.2.2
    (by decide)
  have h1 := (C6_reader_zone_and_read sampleOpenEmptyRO rfl 0 1 (by decide)).2.2.2
    (by decide)
  have h2 := (C6_reader_zone_and_read sampleOpenEmptyRO rfl (-1) 1 (by decide)).1
    (by decide)
  have h3 := (C6_reader_zone_and_read sampleOpenEmptyRO rfl 1 1 (by decide)).2.1
    (by decide) (by decide)
  exact ⟨h0.2.1.mpr (by decide), h1.1.mpr (by decide), h2.1, h3.1⟩

/-- Closed-handle helper: Parallel Zone acquisition on a closed handle fails
with PRECONDITION_ERROR and changes nothing, for any mode and arguments. -/
theorem zone_closed_pmf (st : FileState) (h : st.handleOpen = false)
    (w : Bool) (off size : Int) (b1 b2 : Bool) :
    MemoryMapParallelFileImpl.Zone st w off size b1 b2
      = (precond "not opened file", -1, 0, st) := by
  unfold MemoryMapParallelFileImpl.Zone
  rw [if_pos h]

/-- Closed-handle helper: Atomic Zone acquisition on a closed handle fails
with PRECONDITION_ERROR and changes nothing. -/
theorem zone_closed_amf (st : FileState) (h : st.handleOpen = false)
    (w : Bool) (off size : Int) (b1 b2 : Bool) :
    MemoryMapAtomicFileImpl.Zone st w off size b1 b2
      = (precond "not opened file", -1, 0, st) := by
  unfold MemoryMapAtomicFileImpl.Zone
  rw [if_pos h]

/-- C9: a failed RemapMemory inside AllocateSpace or Truncate closes and nulls
the OS handle and propagates the SYSTEM error; from then on (handle null)
Read, Write, Append, Truncate, TruncateFakely, Synchronize, GetSize, GetPath
and Rename all fail with PRECONDITION_ERROR without touching the state, until
a fresh Open, which proceeds past its already-open guard and succeeds when the
OS cooperates.  Remap failure is the only sticky failure mode: a failed
positional write inside AllocateSpace, a failed OS truncate inside Truncate, a
failed Synchronize and a failed Rename all leave the handle as it was.  Both
variants. -/
theorem C9_poisoning (st : FileState) (minSize size off osLen2 opts : Int)
    (newPath p : String) (hard w : Bool) (b1 b2 b3 : Bool) :
    (st.mapSize < minSize →
       (MemoryMapParallelFileImpl.AllocateSpace st minSize true false).1.code
           = StatusCode.systemError ∧
       (MemoryMapParallelFileImpl.AllocateSpace st minSize true false).2.handleOpen
           = false ∧
       (MemoryMapAtomicFileImpl.AllocateSpace st minSize true false).1.code
           = StatusCode.systemError ∧
       (MemoryMapAtomicFileImpl.AllocateSpace st minSize true false).2.handleOpen
           = false) ∧
    (st.handleOpen = true → st.writable = true →
       (MemoryMapParallelFileImpl.Truncate st size false b1).1.code
           = StatusCode.systemError ∧
       (MemoryMapParallelFileImpl.Truncate st size false b1).2.handleOpen
           = false ∧
       (MemoryMapAtomicFileImpl.Truncate st size false b1).1.code
           = StatusCode.systemError ∧
       (MemoryMapAtomicFileImpl.Truncate st size false b1).2.handleOpen
           = false) ∧
    (st.handleOpen = false →
       MemoryMapParallelFileImpl.Read st off size
         = (precond "not opened file", st) ∧
       MemoryMapParallelFileImpl.Write st off size b1 b2
         = (precond "not opened file", st) ∧
       MemoryMapParallelFileImpl.Append st size b1 b2
         = (precond "not opened file", -1, st) ∧
       MemoryMapParallelFileImpl.Truncate st size b1 b2
         = (precond "not opened file", st) ∧
       MemoryMapParallelFileImpl.TruncateFakely st size
         = (precond "not opened file", st) ∧
       MemoryMapParallelFileImpl.Synchronize st hard off size b1 b2 b3
         = (precond "not opened file", st) ∧
       MemoryMapParallelFileImpl.GetSize st = (precond "not opened file", none) ∧
       MemoryMapParallelFileImpl.GetPath st = (precond "not opened file", none) ∧
       MemoryMapParallelFileImpl.Rename st newPath b1
         = (precond "not opened file", st) ∧
       MemoryMapAtomicFileImpl.Read st off size
         = (precond "not opened file", st) ∧
       MemoryMapAtomicFileImpl.Write st off size b1 b2
         = (precond "not opened file", st) ∧
       MemoryMapAtomicFileImpl.Append st size b1 b2
         = (precond "not opened file", -1, st) ∧
       MemoryMapAtomicFileImpl.Truncate st size b1 b2
         = (precond "not opened file", st) ∧
       MemoryMapAtomicFileImpl.TruncateFakely st size
         = (precond "not opened file", st) ∧
       MemoryMapAtomicFileImpl.Synchronize st hard off size b1 b2 b3
         = (precond "not opened file", st) ∧
       MemoryMapAtomicFileImpl.GetSize st = (precond "not opened file", none) ∧
       MemoryMapAtomicFileImpl.GetPath st = (precond "not opened file", none) ∧
       MemoryMapAtomicFileImpl.Rename st newPath b1
         = (precond "not opened file", st)) ∧
    (st.handleOpen = false → osLen2 ≤ MAX_MEMORY_SIZE →
       (MemoryMapParallelFileImpl.Open st p w opts true true true osLen2 true).1
           = Status.ok ∧
       (MemoryMapParallelFileImpl.Open st p w opts true true true osLen2 true).2.handleOpen
           = true ∧
       (MemoryMapAtomicFileImpl.Open st p w opts true true true osLen2 true).1
           = Status.ok ∧
       (MemoryMapAtomicFileImpl.Open st p w opts true true true osLen2 true).2.handleOpen
           = true) ∧
    ((MemoryMapParallelFileImpl.AllocateSpace st minSize false b1).2.handleOpen
         = st.handleOpen ∧
     (MemoryMapAtomicFileImpl.AllocateSpace st minSize false b1).2.handleOpen
         = st.handleOpen ∧
     (st.handleOpen = true → st.writable = true →
        (MemoryMapParallelFileImpl.Truncate st size true false).2.handleOpen
            = true ∧
        (MemoryMapAtomicFileImpl.Truncate st size true false).2.handleOpen
            = true) ∧
     (MemoryMapParallelFileImpl.Synchronize st hard off size b1 b2 b3).2.handleOpen
         = st.handleOpen ∧
     (MemoryMapParallelFileImpl.Rename st newPath false).2.handleOpen
         = st.handleOpen) := by
  refine ⟨?_, ?_, ?_, ?_, ?_, ?_, ?_, ?_, ?_⟩
  · intro hg
    rw [amf_allocateSpace_eq]
    unfold MemoryMapParallelFileImpl.AllocateSpace
    rw [if_neg (by omega)]
    exact ⟨rfl, rfl, rfl, rfl⟩
  · intro ho hw
    rw [amf_truncate_eq]
    unfold MemoryMapParallelFileImpl.Truncate
    rw [if_neg (by simp [ho]), if_neg (by simp [hw])]
    exact ⟨rfl, rfl, rfl, rfl⟩
  · intro hc
    have hzP := zone_closed_pmf st hc
    have hzA := zone_closed_amf st hc
    refine ⟨?_, ?_, ?_, ?_, ?_, ?_, ?_, ?_, ?_, ?_, ?_, ?_, ?_, ?_, ?_, ?_,
            ?_, ?_⟩
    · unfold MemoryMapParallelFileImpl.Read
      rw [hzP false off size true true]; rfl
    · unfold MemoryMapParallelFileImpl.Write
      rw [hzP true off size b1 b2]
    · unfold MemoryMapParallelFileImpl.Append
      rw [hzP true (-1) size b1 b2]
    · unfold MemoryMapParallelFileImpl.Truncate
      rw [if_pos hc]
    · unfold MemoryMapParallelFileImpl.TruncateFakely
      rw [if_pos hc]
    · unfold MemoryMapParallelFileImpl.Synchronize
      rw [if_pos hc]
    · unfold MemoryMapParallelFileImpl.GetSize
      rw [if_pos hc]
    · unfold MemoryMapParallelFileImpl.GetPath
      rw [if_pos hc]
    · unfold MemoryMapParallelFileImpl.Rename
      rw [if_pos hc]
    · unfold MemoryMapAtomicFileImpl.Read
      rw [hzA false off size true true]; rfl
    · unfold MemoryMapAtomicFileImpl.Write
      rw [hzA true off size b1 b2]
    · unfold MemoryMapAtomicFileImpl.Append
      rw [hzA true (-1) size b1 b2]
    · unfold MemoryMapAtomicFileImpl.Truncate
      rw [if_pos hc]
    · unfold MemoryMapAtomicFileImpl.TruncateFakely
      rw [if_pos hc]
    · unfold MemoryMapAtomicFileImpl.Synchronize
      rw [if_pos hc]
    · unfold MemoryMapAtomicFileImpl.GetSize
      rw [if_pos hc]
    · unfold MemoryMapAtomicFileImpl.GetPath
      rw [if_pos hc]
    · unfold MemoryMapAtomicFileImpl.Rename
      rw [if_pos hc]
  · intro hc hM
    unfold MemoryMapParallelFileImpl.Open MemoryMapAtomicFileImpl.Open
    rw [if_neg (by simp [hc]), if_neg (by simp), if_neg (by simp),
        if_neg (by simp), if_neg (by omega)]
    dsimp only
    rw [if_neg (by simp)]
    exact ⟨rfl, rfl, rfl, rfl⟩
  · unfold MemoryMapParallelFileImpl.AllocateSpace
    by_cases hle : minSize ≤ st.mapSize
    · rw [if_pos hle]
    · rw [if_neg hle]; rfl
  · rw [amf_allocateSpace_eq]
    unfold MemoryMapParallelFileImpl.AllocateSpace
    by_cases hle : minSize ≤ st.mapSize
    · rw [if_pos hle]
    · rw [if_neg hle]; rfl
  · intro ho hw
    rw [amf_truncate_eq]
    unfold MemoryMapParallelFileImpl.Truncate
    rw [if_neg (by simp [ho]), if_neg (by simp [hw])]
    exact ⟨ho, ho⟩
  · unfold MemoryMapParallelFileImpl.Synchronize
    split_ifs <;> rfl
  · unfold MemoryMapParallelFileImpl.Rename
    split_ifs <;> rfl

/-- C9 witness: on the growth-scenario state a remap failure during
AllocateSpace(20000) reports SYSTEM_ERROR and nulls the handle; on the
resulting closed state GetSize and Read fail with PRECONDITION_ERROR and a
fresh Open succeeds again. -/
theorem C9_poisoning_witness :
    (MemoryMapParallelFileImpl.AllocateSpace sampleOpenW 20000 true false).1.code
        = StatusCode.systemError ∧
    (MemoryMapParallelFileImpl.AllocateSpace sampleOpenW 20000 true false).2.handleOpen
        = false ∧
    MemoryMapParallelFileImpl.GetSize { sampleOpenW with handleOpen := false }
        = (precond "not opened file", none) ∧
    MemoryMapParallelFileImpl.Read { sampleOpenW with handleOpen := false } 0 1
        = (precond "not opened file", { sampleOpenW with handleOpen := false }) ∧
    (MemoryMapParallelFileImpl.Open { sampleOpenW with handleOpen := false }
        "/tmp/a" true 0 true true true 16384 true).1 = Status.ok := by
  have h1 := (C9_poisoning sampleOpenW 20000 1 0 16384 0 "/tmp/b" "/tmp/a"
      false true true true true).1 (by decide)
  have h2 := (C9_poisoning { sampleOpenW with handleOpen := false } 20000 1 0
      16384 0 "/tmp/b" "/tmp/a" false true true true true).2.2.1 rfl
  have h3 := (C9_poisoning { sampleOpenW with handleOpen := false } 20000 1 0
      16384 0 "/tmp/b" "/tmp/a" false true true true true).2.2.2.1 rfl
      (by decide)
  exact ⟨h1.1, h1.2.1, h2.2.2.2.2.2.2.1, h2.1, h3.1⟩

/-- AllocateSpace with both OS calls succeeding always returns SUCCESS,
guarantees the requested bound, never shrinks the map, and leaves every
non-map field unchanged. -/
theorem allocateSpace_ok_pmf (st : FileState) (minSize : Int) :
    ∃ st1, MemoryMapParallelFileImpl.AllocateSpace st minSize true true
        = (Status.ok, st1) ∧
      st1.handleOpen = st.handleOpen ∧ st1.path = st.path ∧
      st1.fileSize = st.fileSize ∧ st1.writable = st.writable ∧
      st1.openOptions = st.openOptions ∧
      st1.allocInitSize = st.allocInitSize ∧
      st1.allocIncFactor = st.allocIncFactor ∧
      minSize ≤ st1.mapSize ∧ st.mapSize ≤ st1.mapSize := by
  by_cases hle : minSize ≤ st.mapSize
  · refine ⟨st, ?_, rfl, rfl, rfl, rfl, rfl, rfl, rfl, hle, le_refl _⟩
    unfold MemoryMapParallelFileImpl.AllocateSpace
    rw [if_pos hle]
  · have hg := allocateSpace_grow_pmf st minSize (by omega)
    have hb := growSize_bounds st minSize
    exact ⟨_, hg, rfl, rfl, rfl, rfl, rfl, rfl, rfl, hb.1,
           le_of_lt (hb.2.2 (by omega))⟩

/-- A successful single Append in the Parallel variant returns the prior
logical size as the reserved offset and advances the logical size by the
appended amount. -/
theorem append_step_pmf (st : FileState) (h : st.handleOpen = true)
    (hw : st.writable = true) (size : Int) :
    ∃ st1, MemoryMapParallelFileImpl.Append st size true true
        = (Status.ok, st.fileSize, st1) ∧
      st1.fileSize = st.fileSize + size ∧ st1.handleOpen = true ∧
      st1.writable = true := by
  obtain ⟨sa, hsa, hh, hp, hf, hwr, ho, hi, hfa, hmin, hmap⟩ :=
    allocateSpace_ok_pmf st (st.fileSize + size)
  refine ⟨{ sa with fileSize := st.fileSize + size }, ?_, rfl,
          hh.trans h, hwr.trans hw⟩
  unfold MemoryMapParallelFileImpl.Append MemoryMapParallelFileImpl.Zone
  rw [if_neg (by simp [h]), if_pos rfl, if_neg (by simp [hw]),
      if_pos (by decide : (-1 : Int) < 0)]
  dsimp only
  rw [hsa]
  rfl

/-- A successful single Append in the Atomic variant does the same; the final
size is max(file_size, off + size), which for nonnegative sizes equals the new
end position. -/
theorem append_step_amf (st : FileState) (h : st.handleOpen = true)
    (hw : st.writable = true) (size : Int) (hsize : 0 ≤ size) :
    ∃ st1, MemoryMapAtomicFileImpl.Append st size true true
        = (Status.ok, st.fileSize, st1) ∧
      st1.fileSize = st.fileSize + size ∧ st1.handleOpen = true ∧
      st1.writable = true := by
  obtain ⟨sa, hsa, hh, hp, hf, hwr, ho, hi, hfa, hmin, hmap⟩ :=
    allocateSpace_ok_pmf st (st.fileSize + size)
  refine ⟨{ sa with fileSize := max sa.fileSize (st.fileSize + size) }, ?_, ?_,
          hh.trans h, hwr.trans hw⟩
  · unfold MemoryMapAtomicFileImpl.Append MemoryMapAtomicFileImpl.Zone
    rw [if_neg (by simp [h]), if_pos rfl, if_neg (by simp [hw])]
    dsimp only
    rw [if_pos (by decide : (-1 : Int) < 0), amf_allocateSpace_eq, hsa]
    rfl
  · dsimp only
    rw [hf]
    exact max_eq_right (by omega)

/-- Unfolding equation of AppendMany on a nonempty list (Parallel). -/
theorem appendMany_cons_pmf (st : FileState) (s : Int) (rest : List Int) :
    MemoryMapParallelFileImpl.AppendMany st (s :: rest)
      = (((MemoryMapParallelFileImpl.Append st s true true).1,
          (MemoryMapParallelFileImpl.Append st s true true).2.1)
           :: (MemoryMapParallelFileImpl.AppendMany
                (MemoryMapParallelFileImpl.Append st s true true).2.2 rest).1,
         (MemoryMapParallelFileImpl.AppendMany
            (MemoryMapParallelFileImpl.Append st s true true).2.2 rest).2) := rfl

/-- Unfolding equation of AppendMany on a nonempty list (Atomic). -/
theorem appendMany_cons_amf (st : FileState) (s : Int) (rest : List Int) :
    MemoryMapAtomicFileImpl.AppendMany st (s :: rest)
      = (((MemoryMapAtomicFileImpl.Append st s true true).1,
          (MemoryMapAtomicFileImpl.Append st s true true).2.1)
           :: (MemoryMapAtomicFileImpl.AppendMany
                (MemoryMapAtomicFileImpl.Append st s true true).2.2 rest).1,
         (MemoryMapAtomicFileImpl.AppendMany
            (MemoryMapAtomicFileImpl.Append st s true true).2.2 rest).2) := rfl

/-- Every append in a run of Appends with cooperating OS succeeds; the
returned offsets are the running prefix sums of the sizes and the final
logical size is the initial one plus the total (Parallel variant). -/
theorem appendMany_spec_pmf (sizes : List Int) :
    ∀ st : FileState, st.handleOpen = true → st.writable = true →
      (∀ q ∈ (MemoryMapParallelFileImpl.AppendMany st sizes).1,
          q.1 = Status.ok) ∧
      (MemoryMapParallelFileImpl.AppendMany st sizes).1.map Prod.snd
          = offsetsFrom st.fileSize sizes ∧
      (MemoryMapParallelFileImpl.AppendMany st sizes).2.fileSize
          = st.fileSize + sizes.sum ∧
      (MemoryMapParallelFileImpl.AppendMany st sizes).2.handleOpen = true ∧
      (MemoryMapParallelFileImpl.AppendMany st sizes).2.writable = true := by
  induction sizes with
  | nil =>
      intro st h hw
      refine ⟨?_, rfl, by simp [MemoryMapParallelFileImpl.AppendMany], h, hw⟩
      intro q hq
      simp [MemoryMapParallelFileImpl.AppendMany] at hq
  | cons s rest ih =>
      intro st h hw
      obtain ⟨st1, hst1, hf1, hh1, hw1⟩ := append_step_pmf st h hw s
      have hAM : MemoryMapParallelFileImpl.AppendMany st (s :: rest)
          = ((Status.ok, st.fileSize)
               :: (MemoryMapParallelFileImpl.AppendMany st1 rest).1,
             (MemoryMapParallelFileImpl.AppendMany st1 rest).2) := by
        rw [appendMany_cons_pmf, hst1]
      have ihr := ih st1 hh1 hw1
      rw [hAM]
      refine ⟨?_, ?_, ?_, ihr.2.2.2.1, ihr.2.2.2.2⟩
      · intro q hq
        rcases List.mem_cons.mp hq with hq1 | hq2
        · rw [hq1]
        · exact ihr.1 q hq2
      · show st.fileSize :: (MemoryMapParallelFileImpl.AppendMany st1 rest).1.map
            Prod.snd = offsetsFrom st.fileSize (s :: rest)
        rw [ihr.2.1, hf1]
        rfl
      · rw [ihr.2.2.1, hf1, List.sum_cons]
        omega

/-- The same run specification for the Atomic variant; nonnegative sizes are
needed because its append takes max(file_size, off + size). -/
theorem appendMany_spec_amf (sizes : List Int) :
    ∀ st : FileState, st.handleOpen = true → st.writable = true →
      (∀ s ∈ sizes, (0:Int) ≤ s) →
      (∀ q ∈ (MemoryMapAtomicFileImpl.AppendMany st sizes).1,
          q.1 = Status.ok) ∧
      (MemoryMapAtomicFileImpl.AppendMany st sizes).1.map Prod.snd
          = offsetsFrom st.fileSize sizes ∧
      (MemoryMapAtomicFileImpl.AppendMany st sizes).2.fileSize
          = st.fileSize + sizes.sum ∧
      (MemoryMapAtomicFileImpl.AppendMany st sizes).2.handleOpen = true ∧
      (MemoryMapAtomicFileImpl.AppendMany st sizes).2.writable = true := by
  induction sizes with
  | nil =>
      intro st h hw _
      refine ⟨?_, rfl, by simp [MemoryMapAtomicFileImpl.AppendMany], h, hw⟩
      intro q hq
      simp [MemoryMapAtomicFileImpl.AppendMany] at hq
  | cons s rest ih =>
      intro st h hw hs
      obtain ⟨st1, hst1, hf1, hh1, hw1⟩ :=
        append_step_amf st h hw s (hs s (by simp))
      have hAM : MemoryMapAtomicFileImpl.AppendMany st (s :: rest)
          = ((Status.ok, st.fileSize)
               :: (MemoryMapAtomicFileImpl.AppendMany st1 rest).1,
             (MemoryMapAtomicFileImpl.AppendMany st1 rest).2) := by
        rw [appendMany_cons_amf, hst1]
      have ihr := ih st1 hh1 hw1 (fun x hx => hs x (by simp [hx]))
      rw [hAM]
      refine ⟨?_, ?_, ?_, ihr.2.2.2.1, ihr.2.2.2.2⟩
      · intro q hq
        rcases List.mem_cons.mp hq with hq1 | hq2
        · rw [hq1]
        · exact ihr.1 q hq2
      · show st.fileSize :: (MemoryMapAtomicFileImpl.AppendMany st1 rest).1.map
            Prod.snd = offsetsFrom st.fileSize (s :: rest)
        rw [ihr.2.1, hf1]
        rfl
      · rw [ihr.2.2.1, hf1, List.sum_cons]
        omega

/-- Every offset/size pair of the expected prefix-sum run starts at or after
the base and ends within base + total. -/
theorem offsetsFrom_mem_le (base : Int) (sizes : List Int)
    (hs : ∀ s ∈ sizes, (0:Int) ≤ s) :
    ∀ q ∈ (offsetsFrom base sizes).zip sizes,
      base ≤ q.1 ∧ q.1 + q.2 ≤ base + sizes.sum := by
  induction sizes generalizing base with
  | nil =>
      intro q hq
      simp [offsetsFrom] at hq
  | cons s rest ih =>
      intro q hq
      have hs0 : (0:Int) ≤ s := hs s (by simp)
      have hsr : ∀ x ∈ rest, (0:Int) ≤ x := fun x hx => hs x (by simp [hx])
      have hsum : (0:Int) ≤ rest.sum := List.sum_nonneg hsr
      rcases List.mem_cons.mp hq with h1 | h2
      · rw [h1]
        refine ⟨le_refl _, ?_⟩
        rw [List.sum_cons]
        omega
      · have hm := ih (base + s) hsr q h2
        rw [List.sum_cons]
        constructor
        · omega
        · omega

/-- The expected prefix-sum run yields pairwise non-overlapping, consecutive
ranges when all sizes are nonnegative. -/
theorem offsetsFrom_pairwise (base : Int) (sizes : List Int)
    (hs : ∀ s ∈ sizes, (0:Int) ≤ s) :
    List.Pairwise (fun a b => a.1 + a.2 ≤ b.1)
      ((offsetsFrom base sizes).zip sizes) := by
  induction sizes generalizing base with
  | nil => simp [offsetsFrom]
  | cons s rest ih =>
      have hsr : ∀ x ∈ rest, (0:Int) ≤ x := fun x hx => hs x (by simp [hx])
      refine List.Pairwise.cons ?_ (ih (base + s) hsr)
      intro b hb
      exact (offsetsFrom_mem_le (base + s) rest hsr b hb).1

/-- C2: in a run of Appends with successful OS calls on an open writable file,
every Append succeeds, returns the logical size holding immediately before it
(the running prefix sum), and leaves the logical size at offset + size, so the
returned ranges are consecutive, pairwise disjoint, and end within the final
file size; this holds for the Parallel (CAS loop) and the Atomic
(off = file_size; file_size = max(file_size, off + size)) variants alike. -/
theorem C2_append_offsets (st : FileState) (sizes : List Int)
    (h : st.handleOpen = true) (hw : st.writable = true)
    (hs : ∀ s ∈ sizes, (0:Int) ≤ s) :
    ((∀ q ∈ (MemoryMapParallelFileImpl.AppendMany st sizes).1,
         q.1 = Status.ok) ∧
     (MemoryMapParallelFileImpl.AppendMany st sizes).1.map Prod.snd
        = offsetsFrom st.fileSize sizes ∧
     (MemoryMapParallelFileImpl.AppendMany st sizes).2.fileSize
        = st.fileSize + sizes.sum ∧
     List.Pairwise (fun a b => a.1 + a.2 ≤ b.1)
       (((MemoryMapParallelFileImpl.AppendMany st sizes).1.map Prod.snd).zip
         sizes) ∧
     (∀ q ∈ ((MemoryMapParallelFileImpl.AppendMany st sizes).1.map
          Prod.snd).zip sizes,
        q.1 + q.2 ≤ (MemoryMapParallelFileImpl.AppendMany st sizes).2.fileSize)) ∧
    ((∀ q ∈ (MemoryMapAtomicFileImpl.AppendMany st sizes).1,
         q.1 = Status.ok) ∧
     (MemoryMapAtomicFileImpl.AppendMany st sizes).1.map Prod.snd
        = offsetsFrom st.fileSize sizes ∧
     (MemoryMapAtomicFileImpl.AppendMany st sizes).2.fileSize
        = st.fileSize + sizes.sum ∧
     List.Pairwise (fun a b => a.1 + a.2 ≤ b.1)
       (((MemoryMapAtomicFileImpl.AppendMany st sizes).1.map Prod.snd).zip
         sizes) ∧
     (∀ q ∈ ((MemoryMapAtomicFileImpl.AppendMany st sizes).1.map
          Prod.snd).zip sizes,
        q.1 + q.2 ≤ (MemoryMapAtomicFileImpl.AppendMany st sizes).2.fileSize)) ∧
    (∀ s2 : Int, 0 ≤ s2 →
       ∃ st1, MemoryMapParallelFileImpl.Append st s2 true true
           = (Status.ok, st.fileSize, st1) ∧
         st1.fileSize = st.fileSize + s2) ∧
    (∀ s2 : Int, 0 ≤ s2 →
       ∃ st1, MemoryMapAtomicFileImpl.Append st s2 true true
           = (Status.ok, st.fileSize, st1) ∧
         st1.fileSize = st.fileSize + s2) := by
  have hP := appendMany_spec_pmf sizes st h hw
  have hA := appendMany_spec_amf sizes st h hw hs
  refine ⟨⟨hP.1, hP.2.1, hP.2.2.1, ?_, ?_⟩, ⟨hA.1, hA.2.1, hA.2.2.1, ?_, ?_⟩,
          ?_, ?_⟩
  · rw [hP.2.1]
    exact offsetsFrom_pairwise st.fileSize sizes hs
  · intro q hq
    rw [hP.2.1] at hq
    rw [hP.2.2.1]
    exact (offsetsFrom_mem_le st.fileSize sizes hs q hq).2
  · rw [hA.2.1]
    exact offsetsFrom_pairwise st.fileSize sizes hs
  · intro q hq
    rw [hA.2.1] at hq
    rw [hA.2.2.1]
    exact (offsetsFrom_mem_le st.fileSize sizes hs q hq).2
  · intro s2 hs2
    obtain ⟨st1, he, hf, _, _⟩ := append_step_pmf st h hw s2
    exact ⟨st1, he, hf⟩
  · intro s2 hs2
    obtain ⟨st1, he, hf, _, _⟩ := append_step_amf st h hw s2 hs2
    exact ⟨st1, he, hf⟩

/-- C2 witness: the spec growth scenario, two 6000-byte appends on a fresh
writable file: offsets 0 and 6000, final logical size 12000, all statuses
SUCCESS, in both variants. -/
theorem C2_append_offsets_witness :
    (MemoryMapParallelFileImpl.AppendMany sampleFreshW [6000, 6000]).1.map
        Prod.snd = [0, 6000] ∧
    (MemoryMapParallelFileImpl.AppendMany sampleFreshW [6000, 6000]).2.fileSize
        = 12000 ∧
    (MemoryMapAtomicFileImpl.AppendMany sampleFreshW [6000, 6000]).1.map
        Prod.snd = [0, 6000] ∧
    (MemoryMapAtomicFileImpl.AppendMany sampleFreshW [6000, 6000]).2.fileSize
        = 12000 := by
  have h := C2_append_offsets sampleFreshW [6000, 6000] rfl rfl (by decide)
  refine ⟨?_, ?_, ?_, ?_⟩
  · rw [h.1.2.1]; rfl
  · rw [h.1.2.2.1]; rfl
  · rw [h.2.1.2.1]; rfl
  · rw [h.2.1.2.2.1]; rfl

/-- The remaining shared operations also coincide across the two variants. -/
theorem amf_open_eq :
    MemoryMapAtomicFileImpl.Open = MemoryMapParallelFileImpl.Open := rfl

/-- Close coincides across the two variants. -/
theorem amf_close_eq :
    MemoryMapAtomicFileImpl.Close = MemoryMapParallelFileImpl.Close := rfl

/-- TruncateFakely coincides across the two variants. -/
theorem amf_truncateFakely_eq :
    MemoryMapAtomicFileImpl.TruncateFakely
      = MemoryMapParallelFileImpl.TruncateFakely := rfl

/-- Synchronize coincides across the two variants. -/
theorem amf_synchronize_eq :
    MemoryMapAtomicFileImpl.Synchronize
      = MemoryMapParallelFileImpl.Synchronize := rfl

/-- SetAllocationStrategy coincides across the two variants. -/
theorem amf_setAllocationStrategy_eq :
    MemoryMapAtomicFileImpl.SetAllocationStrategy
      = MemoryMapParallelFileImpl.SetAllocationStrategy := rfl

/-- Rename coincides across the two variants. -/
theorem amf_rename_eq :
    MemoryMapAtomicFileImpl.Rename = MemoryMapParallelFileImpl.Rename := rfl

/-- DisablePathOperations coincides across the two variants. -/
theorem amf_disablePathOperations_eq :
    MemoryMapAtomicFileImpl.DisablePathOperations
      = MemoryMapParallelFileImpl.DisablePathOperations := rfl

/-- Expand acquires the same writer Zone as Append and reports the same
offset, so the two are the same function (Parallel). -/
theorem expand_eq_append_pmf :
    MemoryMapParallelFileImpl.Expand = MemoryMapParallelFileImpl.Append := rfl

/-- Expand and Append coincide in the Atomic variant as well. -/
theorem expand_eq_append_amf :
    MemoryMapAtomicFileImpl.Expand = MemoryMapAtomicFileImpl.Append := rfl

/-- The size invariant transfers along states that agree on the open flag and
the two sizes. -/
theorem sizeInv_transfer (st st' : FileState) (hInv : SizeInv st)
    (hh : st'.handleOpen = st.handleOpen) (hf : st'.fileSize = st.fileSize)
    (hm : st'.mapSize = st.mapSize) : SizeInv st' := by
  intro hopen
  rw [hf, hm]
  exact hInv (by rw [← hh]; exact hopen)

/-- Open preserves the size invariant: failures leave the state alone and a
successful open publishes file_size = len ≤ map_size. -/
theorem open_sizeInv_pmf (st : FileState) (hInv : SizeInv st) (p : String)
    (w : Bool) (opts : Int) (c l so : Bool) (len : Int) (mo : Bool)
    (hlen : 0 ≤ len) :
    SizeInv (MemoryMapParallelFileImpl.Open st p w opts c l so len mo).2 := by
  unfold MemoryMapParallelFileImpl.Open
  dsimp only
  split_ifs <;>
    first
      | exact hInv
      | (intro _; exact ⟨hlen, le_max_left _ _⟩)
      | (intro _; exact ⟨hlen, le_refl _⟩)

/-- Close preserves the size invariant (the closed state satisfies it
vacuously). -/
theorem close_sizeInv_pmf (st : FileState) (hInv : SizeInv st)
    (b1 b2 b3 b4 b5 : Bool) :
    SizeInv (MemoryMapParallelFileImpl.Close st b1 b2 b3 b4 b5).2 := by
  unfold MemoryMapParallelFileImpl.Close
  by_cases hc : st.handleOpen = false
  · rw [if_pos hc]
    exact hInv
  · rw [if_neg hc]
    intro hopen
    exact Bool.noConfusion hopen

/-- Truncate with a successful OS truncation preserves the size invariant for
nonnegative sizes, whatever the remap outcome. -/
theorem truncate_sizeInv_pmf (st : FileState) (hInv : SizeInv st) (size : Int)
    (hsize : 0 ≤ size) (remapOk : Bool) :
    SizeInv (MemoryMapParallelFileImpl.Truncate st size remapOk true).2 := by
  unfold MemoryMapParallelFileImpl.Truncate
  by_cases hc : st.handleOpen = false
  · rw [if_pos hc]; exact hInv
  · rw [if_neg hc]
    by_cases hw : st.writable = false
    · rw [if_pos hw]; exact hInv
    · rw [if_neg hw]
      cases remapOk with
      | false =>
          intro hopen
          exact Bool.noConfusion hopen
      | true =>
          intro _
          refine ⟨hsize, ?_⟩
          show size ≤ truncSize st size
          have hb := (truncSize_bounds st size).1
          have h1 : size ≤ max (max size PAGE_SIZE) st.allocInitSize :=
            le_max_of_le_left (le_max_left _ _)
          omega

/-- TruncateFakely preserves the size invariant for nonnegative sizes. -/
theorem truncateFakely_sizeInv_pmf (st : FileState) (hInv : SizeInv st)
    (size : Int) (hsize : 0 ≤ size) :
    SizeInv (MemoryMapParallelFileImpl.TruncateFakely st size).2 := by
  unfold MemoryMapParallelFileImpl.TruncateFakely
  by_cases hc : st.handleOpen = false
  · rw [if_pos hc]; exact hInv
  · rw [if_neg hc]
    by_cases hlt : st.mapSize < size
    · rw [if_pos hlt]; exact hInv
    · rw [if_neg hlt]
      intro _
      refine ⟨hsize, ?_⟩
      show size ≤ st.mapSize
      omega

/-- Synchronize preserves the size invariant: it equates map_size with
file_size. -/
theorem synchronize_sizeInv_pmf (st : FileState) (hInv : SizeInv st)
    (hard : Bool) (o s : Int) (b1 b2 b3 : Bool) :
    SizeInv (MemoryMapParallelFileImpl.Synchronize st hard o s b1 b2 b3).2 := by
  unfold MemoryMapParallelFileImpl.Synchronize
  by_cases hc : st.handleOpen = false
  · rw [if_pos hc]; exact hInv
  · rw [if_neg hc]
    by_cases hw : st.writable = false
    · rw [if_pos hw]; exact hInv
    · rw [if_neg hw]
      cases b1 <;>
        · intro hopen
          exact ⟨(hInv hopen).1, le_refl _⟩

/-- AllocateSpace preserves the size invariant under every OS outcome. -/
theorem allocateSpace_sizeInv_pmf (st : FileState) (hInv : SizeInv st)
    (m : Int) (b1 b2 : Bool) :
    SizeInv (MemoryMapParallelFileImpl.AllocateSpace st m b1 b2).2 := by
  unfold MemoryMapParallelFileImpl.AllocateSpace
  by_cases hle : m ≤ st.mapSize
  · rw [if_pos hle]; exact hInv
  · rw [if_neg hle]
    cases b1 with
    | false => exact hInv
    | true =>
        cases b2 with
        | false =>
            intro hopen
            exact Bool.noConfusion hopen
        | true =>
            intro hopen
            refine ⟨(hInv hopen).1, ?_⟩
            show st.fileSize ≤ growSize st m
            have hb1 := (growSize_bounds st m).1
            have h2 := (hInv hopen).2
            omega

/-- Write with a nonnegative offset and size preserves the size invariant
under every OS outcome. -/
theorem write_sizeInv_pmf (st : FileState) (hInv : SizeInv st) (o s : Int)
    (ho : 0 ≤ o) (hs : 0 ≤ s) (b1 b2 : Bool) :
    SizeInv (MemoryMapParallelFileImpl.Write st o s b1 b2).2 := by
  unfold MemoryMapParallelFileImpl.Write MemoryMapParallelFileImpl.Zone
  by_cases hc : st.handleOpen = false
  · rw [if_pos hc]; exact hInv
  · rw [if_neg hc, if_pos rfl]
    by_cases hw : st.writable = false
    · rw [if_pos hw]; exact hInv
    · rw [if_neg hw, if_neg (by omega : ¬ o < 0)]
      dsimp only
      by_cases hle : o + s ≤ st.mapSize
      · have hA : MemoryMapParallelFileImpl.AllocateSpace st (o + s) b1 b2
            = (Status.ok, st) := by
          unfold MemoryMapParallelFileImpl.AllocateSpace
          rw [if_pos hle]
        rw [hA]
        intro hopen
        refine ⟨?_, ?_⟩
        · show 0 ≤ max st.fileSize (o + s)
          exact le_max_of_le_right (by omega)
        · show max st.fileSize (o + s) ≤ st.mapSize
          exact max_le (hInv hopen).2 hle
      · cases b1 with
        | false =>
            have hA : MemoryMapParallelFileImpl.AllocateSpace st (o + s) false b2
                = (sysErr "WriteFile", st) := by
              unfold MemoryMapParallelFileImpl.AllocateSpace
              rw [if_neg hle]
              rfl
            rw [hA]
            exact hInv
        | true =>
            cases b2 with
            | false =>
                have hA : MemoryMapParallelFileImpl.AllocateSpace st (o + s)
                      true false
                    = (sysErr "RemapMemory",
                       { st with osLen := max st.osLen (growSize st (o + s)),
                                 handleOpen := false }) := by
                  unfold MemoryMapParallelFileImpl.AllocateSpace growSize
                  rw [if_neg hle]
                  rfl
                rw [hA]
                intro hopen
                exact Bool.noConfusion hopen
            | true =>
                have hA := allocateSpace_grow_pmf st (o + s) (by omega)
                rw [hA]
                intro hopen
                have hb1 := (growSize_bounds st (o + s)).1
                have h2 := (hInv hopen).2
                refine ⟨?_, ?_⟩
                · show 0 ≤ max st.fileSize (o + s)
                  exact le_max_of_le_right (by omega)
                · show max st.fileSize (o + s) ≤ growSize st (o + s)
                  exact max_le (by omega) hb1

/-- Append with a nonnegative size preserves the size invariant under every
OS outcome (Parallel). -/
theorem append_sizeInv_pmf (st : FileState) (hInv : SizeInv st) (s : Int)
    (hs : 0 ≤ s) (b1 b2 : Bool) :
    SizeInv (MemoryMapParallelFileImpl.Append st s b1 b2).2.2 := by
  unfold MemoryMapParallelFileImpl.Append MemoryMapParallelFileImpl.Zone
  by_cases hc : st.handleOpen = false
  · rw [if_pos hc]; exact hInv
  · rw [if_neg hc, if_pos rfl]
    by_cases hw : st.writable = false
    · rw [if_pos hw]; exact hInv
    · rw [if_neg hw, if_pos (by decide : (-1 : Int) < 0)]
      dsimp only
      by_cases hle : st.fileSize + s ≤ st.mapSize
      · have hA : MemoryMapParallelFileImpl.AllocateSpace st (st.fileSize + s)
              b1 b2 = (Status.ok, st) := by
          unfold MemoryMapParallelFileImpl.AllocateSpace
          rw [if_pos hle]
        rw [hA]
        intro hopen
        have h1 := (hInv hopen).1
        refine ⟨?_, ?_⟩
        · show 0 ≤ st.fileSize + s
          omega
        · show st.fileSize + s ≤ st.mapSize
          exact hle
      · cases b1 with
        | false =>
            have hA : MemoryMapParallelFileImpl.AllocateSpace st
                  (st.fileSize + s) false b2 = (sysErr "WriteFile", st) := by
              unfold MemoryMapParallelFileImpl.AllocateSpace
              rw [if_neg hle]
              rfl
            rw [hA]
            exact hInv
        | true =>
            cases b2 with
            | false =>
                have hA : MemoryMapParallelFileImpl.AllocateSpace st
                      (st.fileSize + s) true false
                    = (sysErr "RemapMemory",
                       { st with osLen := max st.osLen
                                   (growSize st (st.fileSize + s)),
                                 handleOpen := false }) := by
                  unfold MemoryMapParallelFileImpl.AllocateSpace growSize
                  rw [if_neg hle]
                  rfl
                rw [hA]
                intro hopen
                exact Bool.noConfusion hopen
            | true =>
                have hA := allocateSpace_grow_pmf st (st.fileSize + s)
                  (by omega)
                rw [hA]
                intro hopen
                have hb1 := (growSize_bounds st (st.fileSize + s)).1
                have h1 := (hInv hopen).1
                refine ⟨?_, ?_⟩
                · show 0 ≤ st.fileSize + s
                  omega
                · show st.fileSize + s ≤ growSize st (st.fileSize + s)
                  exact hb1

/-- Write preserves the size invariant in the Atomic variant as well. -/
theorem write_sizeInv_amf (st : FileState) (hInv : SizeInv st) (o s : Int)
    (ho : 0 ≤ o) (hs : 0 ≤ s) (b1 b2 : Bool) :
    SizeInv (MemoryMapAtomicFileImpl.Write st o s b1 b2).2 := by
  unfold MemoryMapAtomicFileImpl.Write MemoryMapAtomicFileImpl.Zone
  by_cases hc : st.handleOpen = false
  · rw [if_pos hc]; exact hInv
  · rw [if_neg hc, if_pos rfl]
    by_cases hw : st.writable = false
    · rw [if_pos hw]; exact hInv
    · rw [if_neg hw]
      dsimp only
      rw [if_neg (by omega : ¬ o < 0), amf_allocateSpace_eq]
      by_cases hle : o + s ≤ st.mapSize
      · have hA : MemoryMapParallelFileImpl.AllocateSpace st (o + s) b1 b2
            = (Status.ok, st) := by
          unfold MemoryMapParallelFileImpl.AllocateSpace
          rw [if_pos hle]
        rw [hA]
        intro hopen
        refine ⟨?_, ?_⟩
        · show 0 ≤ max st.fileSize (o + s)
          exact le_max_of_le_right (by omega)
        · show max st.fileSize (o + s) ≤ st.mapSize
          exact max_le (hInv hopen).2 hle
      · cases b1 with
        | false =>
            have hA : MemoryMapParallelFileImpl.AllocateSpace st (o + s) false b2
                = (sysErr "WriteFile", st) := by
              unfold MemoryMapParallelFileImpl.AllocateSpace
              rw [if_neg hle]
              rfl
            rw [hA]
            exact hInv
        | true =>
            cases b2 with
            | false =>
                have hA : MemoryMapParallelFileImpl.AllocateSpace st (o + s)
                      true false
                    = (sysErr "RemapMemory",
                       { st with osLen := max st.osLen (growSize st (o + s)),
                                 handleOpen := false }) := by
                  unfold MemoryMapParallelFileImpl.AllocateSpace growSize
                  rw [if_neg hle]
                  rfl
                rw [hA]
                intro hopen
                exact Bool.noConfusion hopen
            | true =>
                have hA := allocateSpace_grow_pmf st (o + s) (by omega)
                rw [hA]
                intro hopen
                have hb1 := (growSize_bounds st (o + s)).1
                have h2 := (hInv hopen).2
                refine ⟨?_, ?_⟩
                · show 0 ≤ max st.fileSize (o + s)
                  exact le_max_of_le_right (by omega)
                · show max st.fileSize (o + s) ≤ growSize st (o + s)
                  exact max_le (by omega) hb1

/-- Append preserves the size invariant in the Atomic variant as well. -/
theorem append_sizeInv_amf (st : FileState) (hInv : SizeInv st) (s : Int)
    (hs : 0 ≤ s) (b1 b2 : Bool) :
    SizeInv (MemoryMapAtomicFileImpl.Append st s b1 b2).2.2 := by
  unfold MemoryMapAtomicFileImpl.Append MemoryMapAtomicFileImpl.Zone
  by_cases hc : st.handleOpen = false
  · rw [if_pos hc]; exact hInv
  · rw [if_neg hc, if_pos rfl]
    by_cases hw : st.writable = false
    · rw [if_pos hw]; exact hInv
    · rw [if_neg hw]
      dsimp only
      rw [if_pos (by decide : (-1 : Int) < 0), amf_allocateSpace_eq]
      by_cases hle : st.fileSize + s ≤ st.mapSize
      · have hA : MemoryMapParallelFileImpl.AllocateSpace st (st.fileSize + s)
              b1 b2 = (Status.ok, st) := by
          unfold MemoryMapParallelFileImpl.AllocateSpace
          rw [if_pos hle]
        rw [hA]
        intro hopen
        have h1 := (hInv hopen).1
        refine ⟨?_, ?_⟩
        · show 0 ≤ max st.fileSize (st.fileSize + s)
          exact le_max_of_le_left h1
        · show max st.fileSize (st.fileSize + s) ≤ st.mapSize
          exact max_le (hInv hopen).2 hle
      · cases b1 with
        | false =>
            have hA : MemoryMapParallelFileImpl.AllocateSpace st
                  (st.fileSize + s) false b2 = (sysErr "WriteFile", st) := by
              unfold MemoryMapParallelFileImpl.AllocateSpace
              rw [if_neg hle]
              rfl
            rw [hA]
            exact hInv
        | true =>
            cases b2 with
            | false =>
                have hA : MemoryMapParallelFileImpl.AllocateSpace st
                      (st.fileSize + s) true false
                    = (sysErr "RemapMemory",
                       { st with osLen := max st.osLen
                                   (growSize st (st.fileSize + s)),
                                 handleOpen := false }) := by
                  unfold MemoryMapParallelFileImpl.AllocateSpace growSize
                  rw [if_neg hle]
                  rfl
                rw [hA]
                intro hopen
                exact Bool.noConfusion hopen
            | true =>
                have hA := allocateSpace_grow_pmf st (st.fileSize + s)
                  (by omega)
                rw [hA]
                intro hopen
                have hb1 := (growSize_bounds st (st.fileSize + s)).1
                have h1 := (hInv hopen).1
                have h2 := (hInv hopen).2
                refine ⟨?_, ?_⟩
                · show 0 ≤ max st.fileSize (st.fileSize + s)
                  exact le_max_of_le_left h1
                · show max st.fileSize (st.fileSize + s)
                      ≤ growSize st (st.fileSize + s)
                  exact max_le (by omega) hb1

/-- A fully successful Close of an open writable file returns SUCCESS and
truncates the OS file to the logical size. -/
theorem close_writable_ok_pmf (st : FileState) (ho : st.handleOpen = true)
    (hw : st.writable = true) :
    (MemoryMapParallelFileImpl.Close st true true true true true).1
        = Status.ok ∧
    (MemoryMapParallelFileImpl.Close st true true true true true).2.osLen
        = st.fileSize := by
  unfold MemoryMapParallelFileImpl.Close
  rw [if_neg (by simp [ho]), hw]
  cases hd : st.mapIsDummy <;> exact ⟨rfl, rfl⟩

/-- C7 counterexample: the claim that every public operation with valid
arguments preserves 0 ≤ file_size ≤ map_size fails on Truncate's error path:
on the growth-scenario state (file_size 12000, map 16384) a Truncate(0) whose
RemapMemory succeeds but whose OS truncate fails stores the shrunken
map_size = 4096 while file_size stays 12000, leaving an open state with
map_size < file_size. -/
theorem C7_sizeInv_counterexample :
    (MemoryMapParallelFileImpl.Truncate sampleOpenW 0 true false).1.code
        = StatusCode.systemError ∧
    (MemoryMapParallelFileImpl.Truncate sampleOpenW 0 true false).2.handleOpen
        = true ∧
    (MemoryMapParallelFileImpl.Truncate sampleOpenW 0 true false).2.fileSize
        = 12000 ∧
    (MemoryMapParallelFileImpl.Truncate sampleOpenW 0 true false).2.mapSize
        = 4096 ∧
    (MemoryMapParallelFileImpl.Truncate sampleOpenW 0 true false).2.mapSize
      < (MemoryMapParallelFileImpl.Truncate sampleOpenW 0 true false).2.fileSize := by
  decide

/-- C7 amended: whenever the handle is set, 0 ≤ file_size ≤ map_size, and
every public operation called with nonnegative sizes and offsets preserves
this invariant provided its OS calls succeed — with the sole exception of
Truncate's path where the OS truncate call itself fails (see the
counterexample); argument-validation failures, write failures and remap
failures all preserve it as well (a remap failure closes the handle, making
the invariant vacuous).  After a fully successful Close of a writable file the
OS file length equals the file_size held at the moment of Close.  Both
variants. -/
theorem C7_sizeInv_amended (st : FileState) (hInv : SizeInv st) :
    (∀ (p : String) (w : Bool) (opts : Int) (c l so : Bool) (len : Int)
        (mo : Bool), 0 ≤ len →
       SizeInv (MemoryMapParallelFileImpl.Open st p w opts c l so len mo).2 ∧
       SizeInv (MemoryMapAtomicFileImpl.Open st p w opts c l so len mo).2) ∧
    (∀ b1 b2 b3 b4 b5 : Bool,
       SizeInv (MemoryMapParallelFileImpl.Close st b1 b2 b3 b4 b5).2 ∧
       SizeInv (MemoryMapAtomicFileImpl.Close st b1 b2 b3 b4 b5).2) ∧
    (∀ (size : Int) (r : Bool), 0 ≤ size →
       SizeInv (MemoryMapParallelFileImpl.Truncate st size r true).2 ∧
       SizeInv (MemoryMapAtomicFileImpl.Truncate st size r true).2) ∧
    (∀ size : Int, 0 ≤ size →
       SizeInv (MemoryMapParallelFileImpl.TruncateFakely st size).2 ∧
       SizeInv (MemoryMapAtomicFileImpl.TruncateFakely st size).2) ∧
    (∀ (hard : Bool) (o s : Int) (b1 b2 b3 : Bool),
       SizeInv (MemoryMapParallelFileImpl.Synchronize st hard o s b1 b2 b3).2 ∧
       SizeInv (MemoryMapAtomicFileImpl.Synchronize st hard o s b1 b2 b3).2) ∧
    (∀ (i : Int) (f : ℚ),
       SizeInv (MemoryMapParallelFileImpl.SetAllocationStrategy st i f).2 ∧
       SizeInv (MemoryMapAtomicFileImpl.SetAllocationStrategy st i f).2) ∧
    (∀ (np : String) (b : Bool),
       SizeInv (MemoryMapParallelFileImpl.Rename st np b).2 ∧
       SizeInv (MemoryMapAtomicFileImpl.Rename st np b).2 ∧
       SizeInv (MemoryMapParallelFileImpl.DisablePathOperations st).2 ∧
       SizeInv (MemoryMapAtomicFileImpl.DisablePathOperations st).2) ∧
    (∀ (m : Int) (b1 b2 : Bool),
       SizeInv (MemoryMapParallelFileImpl.AllocateSpace st m b1 b2).2 ∧
       SizeInv (MemoryMapAtomicFileImpl.AllocateSpace st m b1 b2).2) ∧
    (∀ o s : Int, 0 ≤ o → 0 ≤ s →
       SizeInv (MemoryMapParallelFileImpl.Read st o s).2 ∧
       SizeInv (MemoryMapAtomicFileImpl.Read st o s).2) ∧
    (∀ (o s : Int) (b1 b2 : Bool), 0 ≤ o → 0 ≤ s →
       SizeInv (MemoryMapParallelFileImpl.Write st o s b1 b2).2 ∧
       SizeInv (MemoryMapAtomicFileImpl.Write st o s b1 b2).2) ∧
    (∀ (s : Int) (b1 b2 : Bool), 0 ≤ s →
       SizeInv (MemoryMapParallelFileImpl.Append st s b1 b2).2.2 ∧
       SizeInv (MemoryMapAtomicFileImpl.Append st s b1 b2).2.2 ∧
       SizeInv (MemoryMapParallelFileImpl.Expand st s b1 b2).2.2 ∧
       SizeInv (MemoryMapAtomicFileImpl.Expand st s b1 b2).2.2) ∧
    (st.handleOpen = true → st.writable = true →
       (MemoryMapParallelFileImpl.Close st true true true true true).1
           = Status.ok ∧
       (MemoryMapParallelFileImpl.Close st true true true true true).2.osLen
           = st.fileSize ∧
       (MemoryMapAtomicFileImpl.Close st true true true true true).1
           = Status.ok ∧
       (MemoryMapAtomicFileImpl.Close st true true true true true).2.osLen
           = st.fileSize) := by
  refine ⟨?_, ?_, ?_, ?_, ?_, ?_, ?_, ?_, ?_, ?_, ?_, ?_⟩
  · intro p w opts c l so len mo hlen
    refine ⟨open_sizeInv_pmf st hInv p w opts c l so len mo hlen, ?_⟩
    rw [amf_open_eq]
    exact open_sizeInv_pmf st hInv p w opts c l so len mo hlen
  · intro b1 b2 b3 b4 b5
    refine ⟨close_sizeInv_pmf st hInv b1 b2 b3 b4 b5, ?_⟩
    rw [amf_close_eq]
    exact close_sizeInv_pmf st hInv b1 b2 b3 b4 b5
  · intro size r hsize
    refine ⟨truncate_sizeInv_pmf st hInv size hsize r, ?_⟩
    rw [amf_truncate_eq]
    exact truncate_sizeInv_pmf st hInv size hsize r
  · intro size hsize
    refine ⟨truncateFakely_sizeInv_pmf st hInv size hsize, ?_⟩
    rw [amf_truncateFakely_eq]
    exact truncateFakely_sizeInv_pmf st hInv size hsize
  · intro hard o s b1 b2 b3
    refine ⟨synchronize_sizeInv_pmf st hInv hard o s b1 b2 b3, ?_⟩
    rw [amf_synchronize_eq]
    exact synchronize_sizeInv_pmf st hInv hard o s b1 b2 b3
  · intro i f
    have hP : SizeInv (MemoryMapParallelFileImpl.SetAllocationStrategy st i f).2 := by
      unfold MemoryMapParallelFileImpl.SetAllocationStrategy
      by_cases hc : st.handleOpen = false
      · rw [if_pos hc]; exact hInv
      · rw [if_neg hc]
        exact sizeInv_transfer st _ hInv rfl rfl rfl
    refine ⟨hP, ?_⟩
    rw [amf_setAllocationStrategy_eq]
    exact hP
  · intro np b
    have hP1 : SizeInv (MemoryMapParallelFileImpl.Rename st np b).2 := by
      unfold MemoryMapParallelFileImpl.Rename
      split_ifs <;> exact sizeInv_transfer st _ hInv rfl rfl rfl
    have hP2 : SizeInv (MemoryMapParallelFileImpl.DisablePathOperations st).2 := by
      unfold MemoryMapParallelFileImpl.DisablePathOperations
      split_ifs <;> exact sizeInv_transfer st _ hInv rfl rfl rfl
    refine ⟨hP1, ?_, hP2, ?_⟩
    · rw [amf_rename_eq]; exact hP1
    · rw [amf_disablePathOperations_eq]; exact hP2
  · intro m b1 b2
    refine ⟨allocateSpace_sizeInv_pmf st hInv m b1 b2, ?_⟩
    rw [amf_allocateSpace_eq]
    exact allocateSpace_sizeInv_pmf st hInv m b1 b2
  · intro o s ho hs
    have hP : SizeInv (MemoryMapParallelFileImpl.Read st o s).2 := by
      by_cases hc : st.handleOpen = true
      · rw [(read_spec_pmf st hc o s ho hs).2.2]
        exact hInv
      · have hc2 : st.handleOpen = false := by
          revert hc; cases st.handleOpen <;> simp
        unfold MemoryMapParallelFileImpl.Read
        rw [zone_closed_pmf st hc2 false o s true true]
        exact hInv
    refine ⟨hP, ?_⟩
    rw [amf_read_eq]
    exact hP
  · intro o s b1 b2 ho hs
    exact ⟨write_sizeInv_pmf st hInv o s ho hs b1 b2,
           write_sizeInv_amf st hInv o s ho hs b1 b2⟩
  · intro s b1 b2 hs
    refine ⟨append_sizeInv_pmf st hInv s hs b1 b2,
            append_sizeInv_amf st hInv s hs b1 b2, ?_, ?_⟩
    · rw [expand_eq_append_pmf]
      exact append_sizeInv_pmf st hInv s hs b1 b2
    · rw [expand_eq_append_amf]
      exact append_sizeInv_amf st hInv s hs b1 b2
  · intro ho hw
    have hP := close_writable_ok_pmf st ho hw
    refine ⟨hP.1, hP.2, ?_, ?_⟩
    · rw [amf_close_eq]; exact hP.1
    · rw [amf_close_eq]; exact hP.2

/-- C7 witness: on the growth-scenario state the invariant holds, a fully
successful Close reports SUCCESS and truncates the OS file to 12000, and
TruncateFakely(15000) keeps file_size ≤ map_size. -/
theorem C7_sizeInv_amended_witness :
    (MemoryMapParallelFileImpl.Close sampleOpenW true true true true true).1
        = Status.ok ∧
    (MemoryMapParallelFileImpl.Close sampleOpenW true true true true true).2.osLen
        = 12000 ∧
    (MemoryMapParallelFileImpl.TruncateFakely sampleOpenW 15000).2.fileSize
      ≤ (MemoryMapParallelFileImpl.TruncateFakely sampleOpenW 15000).2.mapSize := by
  have h := C7_sizeInv_amended sampleOpenW (fun _ => by decide)
  have h12 := h.2.2.2.2.2.2.2.2.2.2.2 rfl rfl
  have h4 := (h.2.2.2.1 15000 (by decide)).1 rfl
  exact ⟨h12.1, h12.2.1, h4.2⟩

end Tkrzw
